import Mathlib

/-!
Verification development for the zap-service Pricing & Fee Engine.

The TypeScript sources are shallowly embedded as Lean definitions:

* JavaScript `Map<string, _>` objects become association lists with
  `mapGet` / `mapSet` (insertion-order replacement semantics).
* Stateful service methods become explicit state-passing functions
  that return the thrown-or-returned value (`Except ServiceError _`),
  the updated cache state, and the list of external provider calls
  the method performed (so cache/TTL and "no network call" claims
  are statable).
* JavaScript numbers in `TokenFeeService` (src/services/tokenFeeService.ts)
  are embedded as `JSNum`: exact rationals extended with the IEEE special
  values Infinity, -Infinity and NaN, with the JS semantics of arithmetic
  and comparison on those specials (finite arithmetic is idealized as
  exact; the sign of zero is not tracked).  This keeps the behaviour of
  the unguarded division in `calculateSourceAmount` observable.
* The pure statistical code of `SpreadFeeService`
  (src/services/spreadFeeService.ts) and of the CoinGecko variant of
  `TokenFeeService` (an unnamed repository file, embedded below as
  `TokenFeeServiceCG`) never produces the special values on the inputs
  the claims quantify over, so those services are embedded over `ℚ`;
  `Math.sqrt` is abstracted as an explicit function argument `sq`
  (resp. an `Env` field), since its numeric value never matters to the
  claims, only its shape in the data flow.
* `Date.now()` is the `now` field of the request environment, in
  milliseconds, as in the source.
-/

/-- Embedding of JavaScript `String.prototype.toLowerCase` (ASCII range,
which is all the source ever feeds it), as a character map so that it
reduces inside the kernel. -/
def jsToLower (s : String) : String := ⟨s.data.map Char.toLower⟩

/-- Embedding of JavaScript `String.prototype.toUpperCase` (ASCII range). -/
def jsToUpper (s : String) : String := ⟨s.data.map Char.toUpper⟩

/-- Embedding of JavaScript `String.prototype.trim`: drop leading and
trailing whitespace. -/
def jsTrim (s : String) : String :=
  ⟨(((s.data.dropWhile Char.isWhitespace).reverse).dropWhile
      Char.isWhitespace).reverse⟩

/-- Lookup in a JavaScript-`Map`-like association list (`Map.get`). -/
def mapGet {α : Type} : List (String × α) → String → Option α
  | [], _ => none
  | (k', v) :: rest, k => if k' = k then some v else mapGet rest k

/-- Update in a JavaScript-`Map`-like association list (`Map.set`):
replaces the binding in place if the key is present, else appends. -/
def mapSet {α : Type} : List (String × α) → String → α → List (String × α)
  | [], k, v => [(k, v)]
  | (k', v') :: rest, k, v =>
      if k' = k then (k, v) :: rest else (k', v') :: mapSet rest k v

/-- Embedding of the `ServiceError` class (src/types/index.ts): a message
and an HTTP status code. -/
structure ServiceError where
  message : String
  statusCode : ℤ
deriving DecidableEq, Repr

/-- Outcome of a raw external HTTP call, before the service maps it to a
`ServiceError`: the provider reports the token unknown, throttles the
caller (HTTP 429), or fails in any other way. -/
inductive FetchErr where
  | notFound
  | rateLimited
  | upstream (msg : String)
deriving DecidableEq, Repr

/-- Idealized JavaScript number: an exact rational, or one of the IEEE
special values `Infinity`, `-Infinity`, `NaN`.  Finite arithmetic is
exact (no rounding) and the sign of zero is not tracked. -/
inductive JSNum where
  | num (q : ℚ)
  | inf
  | ninf
  | nan
deriving DecidableEq, Repr

namespace JSNum

/-- JS unary minus. -/
def neg : JSNum → JSNum
  | num q => num (-q)
  | inf => ninf
  | ninf => inf
  | nan => nan

/-- JS addition: `NaN` is absorbing, `Infinity + -Infinity = NaN`. -/
def add : JSNum → JSNum → JSNum
  | nan, _ => nan
  | _, nan => nan
  | inf, ninf => nan
  | ninf, inf => nan
  | inf, _ => inf
  | _, inf => inf
  | ninf, _ => ninf
  | _, ninf => ninf
  | num a, num b => num (a + b)

/-- JS subtraction. -/
def sub (a b : JSNum) : JSNum := a.add b.neg

/-- JS multiplication: `NaN` absorbing, `0 * Infinity = NaN`, signed
infinities otherwise. -/
def mul : JSNum → JSNum → JSNum
  | nan, _ => nan
  | _, nan => nan
  | num a, num b => num (a * b)
  | num a, inf => if a = 0 then nan else if 0 < a then inf else ninf
  | num a, ninf => if a = 0 then nan else if 0 < a then ninf else inf
  | inf, num b => if b = 0 then nan else if 0 < b then inf else ninf
  | ninf, num b => if b = 0 then nan else if 0 < b then ninf else inf
  | inf, inf => inf
  | inf, ninf => ninf
  | ninf, inf => ninf
  | ninf, ninf => inf

/-- JS division: `NaN` absorbing, a nonzero finite number divided by
zero gives a signed infinity, `0 / 0 = NaN`, finite over infinite is
zero, infinite over infinite is `NaN`. -/
def div : JSNum → JSNum → JSNum
  | nan, _ => nan
  | _, nan => nan
  | num a, num b =>
      if b = 0 then (if a = 0 then nan else if 0 < a then inf else ninf)
      else num (a / b)
  | num _, inf => num 0
  | num _, ninf => num 0
  | inf, num b => if 0 ≤ b then inf else ninf
  | ninf, num b => if 0 ≤ b then ninf else inf
  | inf, inf => nan
  | inf, ninf => nan
  | ninf, inf => nan
  | ninf, ninf => nan

/-- JS `<=` comparison: any comparison involving `NaN` is `false`. -/
def le : JSNum → JSNum → Bool
  | nan, _ => false
  | _, nan => false
  | ninf, _ => true
  | _, inf => true
  | inf, _ => false
  | num _, ninf => false
  | num a, num b => decide (a ≤ b)

/-- JS `Math.abs`. -/
def absJS : JSNum → JSNum
  | num q => num |q|
  | inf => inf
  | ninf => inf
  | nan => nan

/-- JS `Math.min`: `NaN` if either argument is `NaN`. -/
def minJS : JSNum → JSNum → JSNum
  | nan, _ => nan
  | _, nan => nan
  | a, b => if a.le b then a else b

end JSNum

/-- Embedding of the `x || 0` idiom applied to an optionally-present JSON
number field: JavaScript replaces a missing field, `0` or `NaN` (the
falsy numbers) by `0`. -/
def jsOr0 : Option JSNum → JSNum
  | some v => if v = JSNum.num 0 ∨ v = JSNum.nan then JSNum.num 0 else v
  | none => JSNum.num 0

namespace Tokens

/-- Embedding of the `TokenInfo` interface (src/constants/tokens.ts). -/
structure TokenInfo where
  id : String
  symbol : String
  name : String
  logoUrl : String
deriving DecidableEq, Repr

/-- Embedding of the `TOKEN_INFO` record (src/constants/tokens.ts), in
insertion order. -/
def TOKEN_INFO : List (String × TokenInfo) :=
  [("eth", ⟨"ethereum", "ETH", "Ethereum",
      "https://cryptologos.cc/logos/ethereum-eth-logo.png"⟩),
   ("usdt", ⟨"tether", "USDT", "Tether USD",
      "https://cryptologos.cc/logos/tether-usdt-logo.png"⟩),
   ("wbtc", ⟨"bitcoin", "WBTC", "Wrapped Bitcoin",
      "https://cryptologos.cc/logos/wrapped-bitcoin-wbtc-logo.png"⟩),
   ("sol", ⟨"solana", "SOL", "Solana",
      "https://cryptologos.cc/logos/solana-sol-logo.png"⟩),
   ("pepe", ⟨"pepe", "PEPE", "Pepe",
      "https://cryptologos.cc/logos/pepe-pepe-logo.png"⟩),
   ("bnb", ⟨"binancecoin", "BNB", "BNB",
      "https://cryptologos.cc/logos/bnb-bnb-logo.png"⟩),
   ("matic", ⟨"matic-network", "MATIC", "Polygon",
      "https://cryptologos.cc/logos/polygon-matic-logo.png"⟩)]

/-- Embedding of the literal `tokenMap` fallback table inside
`normalizeTokenId` (src/constants/tokens.ts). -/
def tokenIdAliasMap : List (String × String) :=
  [("btc", "bitcoin"), ("eth", "ethereum"),
   ("matic", "matic-network"), ("bnb", "binancecoin")]

/-- Embedding of `normalizeTokenId` (src/constants/tokens.ts):
lower-case and trim the input, look it up in `TOKEN_INFO` (returning the
canonical id on a hit), else in the alias table, else pass it through. -/
def normalizeTokenId (token : String) : String :=
  let normalized := jsTrim (jsToLower token)
  match mapGet TOKEN_INFO normalized with
  | some tokenInfo => tokenInfo.id
  | none =>
      match mapGet tokenIdAliasMap normalized with
      | some mapped => mapped
      | none => normalized

end Tokens

namespace TokenFeeService

/-- Embedding of the `TokenPriceData` interface
(src/services/tokenFeeService.ts). -/
structure TokenPriceData where
  token : String
  tokenSymbol : String
  priceUsd : JSNum
  priceIdr : JSNum
  timestamp : ℤ
deriving DecidableEq, Repr

/-- Embedding of the `FeeCalculationResult` interface
(src/services/tokenFeeService.ts). -/
structure FeeCalculationResult where
  token : String
  tokenSymbol : String
  priceUsd : JSNum
  priceIdr : JSNum
  adminFeePercentage : JSNum
  adminFeeAmount : JSNum
  spreadFeePercentage : JSNum
  spreadFeeAmount : JSNum
  totalFeePercentage : JSNum
  totalFeeAmount : JSNum
  amountBeforeFees : JSNum
  amountAfterFees : JSNum
  exchangeRate : JSNum
  timestamp : ℤ
deriving DecidableEq, Repr

/-- Embedding of the `VolatilityResult` interface
(src/services/tokenFeeService.ts). -/
structure VolatilityResult where
  token : String
  volatility : JSNum
  recommendedSpreadFee : JSNum
  timeframe : String
  timestamp : ℤ
deriving DecidableEq, Repr

/-- A `priceCache` entry: the cached value plus the `Date.now()` at which
it was stored. -/
structure PriceCacheEntry where
  data : TokenPriceData
  timestamp : ℤ
deriving DecidableEq, Repr

/-- A `volatilityCache` entry. -/
structure VolCacheEntry where
  result : VolatilityResult
  timestamp : ℤ
deriving DecidableEq, Repr

/-- The mutable instance state of `TokenFeeService`: its two caches. -/
structure St where
  priceCache : List (String × PriceCacheEntry)
  volatilityCache : List (String × VolCacheEntry)
deriving DecidableEq, Repr

/-- One external call made by `TokenFeeService`: a request to the
CoinMarketCap `quotes/latest` endpoint for a symbol (both the price and
the volatility paths use this same endpoint). -/
inductive Call where
  | cmcQuote (symbol : String)
deriving DecidableEq, Repr

/-- The JSON fields of a CoinMarketCap quote the service reads. -/
structure CmcQuote where
  price : JSNum
  percentChange24h : Option JSNum
deriving DecidableEq, Repr

/-- The request environment: the current time, the current value of the
mutable `IDR_TO_USD_RATE` scalar (written only by the background
refresher), the provider's response for each symbol, and `Math.sqrt`
(abstracted; its numeric value never matters to the claims). -/
structure Env where
  now : ℤ
  idrToUsdRate : JSNum
  quote : String → Except FetchErr CmcQuote
  sqrtJS : JSNum → JSNum

/-- Embedding of `CACHE_TTL = 5 * 60 * 1000` (milliseconds). -/
def CACHE_TTL : ℤ := 5 * 60 * 1000

/-- Embedding of `ADMIN_FEE_PERCENTAGE = 0.005`. -/
def ADMIN_FEE_PERCENTAGE : JSNum := JSNum.num 0.005

/-- Embedding of `DEFAULT_SPREAD_FEE_PERCENTAGE = 0.002`. -/
def DEFAULT_SPREAD_FEE_PERCENTAGE : JSNum := JSNum.num 0.002

/-- Embedding of the inline symbol resolution in `getTokenPrice` and
`calculateVolatility`: `Object.values(TOKEN_INFO).find(info => info.id
=== normalizedToken)?.symbol`, defaulting to `token.toUpperCase()` of
the original argument. -/
def resolvedSymbol (normalizedToken token : String) : String :=
  match Tokens.TOKEN_INFO.find? (fun p => p.2.id == normalizedToken) with
  | some p => p.2.symbol
  | none => jsToUpper token

/-- How `getTokenPrice`'s catch block maps a raw provider failure to the
`ServiceError` it throws. -/
def priceFetchError (token : String) : FetchErr → ServiceError
  | FetchErr.notFound =>
      ⟨"Token " ++ token ++ " not found on CoinMarketCap", 404⟩
  | FetchErr.rateLimited =>
      ⟨"CoinMarketCap API rate limit exceeded. Please try again later.", 429⟩
  | FetchErr.upstream msg =>
      ⟨"Failed to get token price: " ++ msg, 500⟩

/-- The cache-miss path of `getTokenPrice`: resolve the display symbol,
call the provider once, and on success build the quote, store it and
return it. -/
def getTokenPriceFetch (env : Env) (st : St) (token normalizedToken : String) :
    Except ServiceError TokenPriceData × St × List Call :=
  let tokenSymbol := resolvedSymbol normalizedToken token
  match env.quote tokenSymbol with
  | Except.error fe =>
      (Except.error (priceFetchError token fe), st, [Call.cmcQuote tokenSymbol])
  | Except.ok q =>
      let priceUsd := q.price
      let priceIdr := priceUsd.mul env.idrToUsdRate
      let result : TokenPriceData :=
        { token := normalizedToken, tokenSymbol := tokenSymbol,
          priceUsd := priceUsd, priceIdr := priceIdr, timestamp := env.now }
      (Except.ok result,
       { st with
          priceCache := mapSet st.priceCache normalizedToken ⟨result, env.now⟩ },
       [Call.cmcQuote tokenSymbol])

/-- Embedding of `TokenFeeService.getTokenPrice`
(src/services/tokenFeeService.ts lines 98-175). -/
def getTokenPrice (env : Env) (st : St) (token : String) :
    Except ServiceError TokenPriceData × St × List Call :=
  let normalizedToken := Tokens.normalizeTokenId token
  match mapGet st.priceCache normalizedToken with
  | some cachedData =>
      if env.now - cachedData.timestamp < CACHE_TTL then
        (Except.ok cachedData.data, st, [])
      else getTokenPriceFetch env st token normalizedToken
  | none => getTokenPriceFetch env st token normalizedToken

/-- Embedding of `TokenFeeService.calculateRecommendedSpreadFee`
(src/services/tokenFeeService.ts lines 509-519). -/
def calculateRecommendedSpreadFee (volatility : JSNum) : JSNum :=
  let baseFee := JSNum.num 0.002
  let volatilityComponent := volatility.mul (JSNum.num 0.5)
  let maxFee := JSNum.num 0.02
  let totalFee := baseFee.add volatilityComponent
  JSNum.minJS totalFee maxFee

/-- The ``${days} day${days > 1 ? "s" : ""}`` timeframe string. -/
def timeframeStr (days : ℤ) : String :=
  toString days ++ " day" ++ (if 1 < days then "s" else "")

/-- How `calculateVolatility`'s catch block maps a raw provider failure
to the `ServiceError` it throws. -/
def volFetchError (token : String) : FetchErr → ServiceError
  | FetchErr.notFound =>
      ⟨"Token " ++ token ++ " not found on CoinMarketCap", 404⟩
  | FetchErr.rateLimited =>
      ⟨"CoinMarketCap API rate limit exceeded. Please try again later.", 429⟩
  | FetchErr.upstream msg =>
      ⟨"Failed to calculate volatility: " ++ msg, 500⟩

/-- The cache-miss path of `calculateVolatility`: one provider call,
then the 24h-percent-change-based volatility figure and the recommended
spread fee, stored under the `(token, days)` cache key. -/
def calculateVolatilityFetch (env : Env) (st : St)
    (token normalizedToken cacheKey : String) (days : ℤ) :
    Except ServiceError VolatilityResult × St × List Call :=
  let tokenSymbol := resolvedSymbol normalizedToken token
  match env.quote tokenSymbol with
  | Except.error fe =>
      (Except.error (volFetchError token fe), st, [Call.cmcQuote tokenSymbol])
  | Except.ok q =>
      let percentChange24h := (jsOr0 q.percentChange24h).absJS.div (JSNum.num 100)
      let volatility :=
        if days = 1 then percentChange24h
        else percentChange24h.mul (env.sqrtJS (JSNum.num (days : ℚ)))
      let recommendedSpreadFee := calculateRecommendedSpreadFee volatility
      let result : VolatilityResult :=
        { token := normalizedToken, volatility := volatility,
          recommendedSpreadFee := recommendedSpreadFee,
          timeframe := timeframeStr days, timestamp := env.now }
      (Except.ok result,
       { st with
          volatilityCache := mapSet st.volatilityCache cacheKey ⟨result, env.now⟩ },
       [Call.cmcQuote tokenSymbol])

/-- Embedding of `TokenFeeService.calculateVolatility`
(src/services/tokenFeeService.ts lines 410-502). -/
def calculateVolatility (env : Env) (st : St) (token : String) (days : ℤ) :
    Except ServiceError VolatilityResult × St × List Call :=
  if days < 1 ∨ 30 < days then
    (Except.error ⟨"Days parameter must be between 1 and 30", 400⟩, st, [])
  else
    let normalizedToken := Tokens.normalizeTokenId token
    let cacheKey := normalizedToken ++ "-" ++ toString days
    match mapGet st.volatilityCache cacheKey with
    | some cachedResult =>
        if env.now - cachedResult.timestamp < CACHE_TTL then
          (Except.ok cachedResult.result, st, [])
        else calculateVolatilityFetch env st token normalizedToken cacheKey days
    | none => calculateVolatilityFetch env st token normalizedToken cacheKey days

/-- The spread-fee resolution step shared by `calculateFees` and
`calculateSourceAmount`: the override verbatim if supplied, else the
volatility-recommended fee, else (the absorbed failure case) the
hardcoded default. -/
def resolveSpreadFee (env : Env) (st : St) (token : String)
    (customSpreadFee : Option JSNum) : JSNum × St × List Call :=
  match customSpreadFee with
  | some f => (f, st, [])
  | none =>
      match calculateVolatility env st token 1 with
      | (Except.ok v, st', c) => (v.recommendedSpreadFee, st', c)
      | (Except.error _, st', c) => (DEFAULT_SPREAD_FEE_PERCENTAGE, st', c)

/-- Embedding of `TokenFeeService.calculateFees`
(src/services/tokenFeeService.ts lines 184-254).  The `amount <= 0`
guard is the first statement; the deduction discipline
`amountAfterFees = amount - totalFeeAmount` is applied. -/
def calculateFees (env : Env) (st : St) (token : String) (amount : JSNum)
    (customSpreadFee : Option JSNum) :
    Except ServiceError FeeCalculationResult × St × List Call :=
  if amount.le (JSNum.num 0) then
    (Except.error ⟨"Amount must be greater than 0", 400⟩, st, [])
  else
    match getTokenPrice env st token with
    | (Except.error e, st1, c1) => (Except.error e, st1, c1)
    | (Except.ok priceData, st1, c1) =>
        match resolveSpreadFee env st1 token customSpreadFee with
        | (spreadFeePercentage, st2, c2) =>
            let adminFeeAmount := amount.mul ADMIN_FEE_PERCENTAGE
            let spreadFeeAmount := amount.mul spreadFeePercentage
            let totalFeeAmount := adminFeeAmount.add spreadFeeAmount
            let totalFeePercentage := ADMIN_FEE_PERCENTAGE.add spreadFeePercentage
            let amountBeforeFees := amount
            let amountAfterFees := amount.sub totalFeeAmount
            let exchangeRate := priceData.priceIdr
            (Except.ok
              { token := priceData.token, tokenSymbol := priceData.tokenSymbol,
                priceUsd := priceData.priceUsd, priceIdr := priceData.priceIdr,
                adminFeePercentage := ADMIN_FEE_PERCENTAGE,
                adminFeeAmount := adminFeeAmount,
                spreadFeePercentage := spreadFeePercentage,
                spreadFeeAmount := spreadFeeAmount,
                totalFeePercentage := totalFeePercentage,
                totalFeeAmount := totalFeeAmount,
                amountBeforeFees := amountBeforeFees,
                amountAfterFees := amountAfterFees,
                exchangeRate := exchangeRate, timestamp := env.now },
             st2, c1 ++ c2)

/-- Embedding of `TokenFeeService.calculateIdrxAmount`
(src/services/tokenFeeService.ts lines 263-297):
`idrxAmount = amountAfterFees * exchangeRate`. -/
def calculateIdrxAmount (env : Env) (st : St) (token : String) (amount : JSNum)
    (customSpreadFee : Option JSNum) :
    Except ServiceError (JSNum × FeeCalculationResult) × St × List Call :=
  match calculateFees env st token amount customSpreadFee with
  | (Except.error e, st1, c1) => (Except.error e, st1, c1)
  | (Except.ok feeCalculation, st1, c1) =>
      let idrxAmount := feeCalculation.amountAfterFees.mul feeCalculation.exchangeRate
      (Except.ok (idrxAmount, feeCalculation), st1, c1)

/-- The inverse-conversion division of `calculateSourceAmount`:
`sourceAmount = idrxAmount / (exchangeRate * (1 - totalFeePercentage))`
(src/services/tokenFeeService.ts lines 342-343). -/
def sourceAmountFormula (idrxAmount exchangeRate totalFeePercentage : JSNum) :
    JSNum :=
  idrxAmount.div (exchangeRate.mul ((JSNum.num 1).sub totalFeePercentage))

/-- Embedding of `TokenFeeService.calculateSourceAmount`
(src/services/tokenFeeService.ts lines 306-367): guard, price lookup,
fee resolution, the unguarded inverse division, then a fresh
`calculateFees` on the derived source amount with the fee pinned. -/
def calculateSourceAmount (env : Env) (st : St) (token : String)
    (idrxAmount : JSNum) (customSpreadFee : Option JSNum) :
    Except ServiceError (JSNum × FeeCalculationResult) × St × List Call :=
  if idrxAmount.le (JSNum.num 0) then
    (Except.error ⟨"IDRX amount must be greater than 0", 400⟩, st, [])
  else
    match getTokenPrice env st token with
    | (Except.error e, st1, c1) => (Except.error e, st1, c1)
    | (Except.ok priceData, st1, c1) =>
        match resolveSpreadFee env st1 token customSpreadFee with
        | (spreadFeePercentage, st2, c2) =>
            let totalFeePercentage := ADMIN_FEE_PERCENTAGE.add spreadFeePercentage
            let exchangeRate := priceData.priceIdr
            let sourceAmount :=
              sourceAmountFormula idrxAmount exchangeRate totalFeePercentage
            match calculateFees env st2 token sourceAmount (some spreadFeePercentage) with
            | (Except.error e, st3, c3) => (Except.error e, st3, c1 ++ c2 ++ c3)
            | (Except.ok feeCalculation, st3, c3) =>
                (Except.ok (sourceAmount, feeCalculation), st3, c1 ++ c2 ++ c3)

end TokenFeeService

namespace SpreadFeeService

/-- Embedding of the `VolatilityResult` interface
(src/services/spreadFeeService.ts). -/
structure VolatilityResult where
  token : String
  volatility : ℚ
  recommendedSpreadFee : ℚ
  timeframe : String
  timestamp : ℤ
deriving DecidableEq, Repr

/-- A `volatilityCache` entry. -/
structure VolCacheEntry where
  result : VolatilityResult
  timestamp : ℤ
deriving DecidableEq, Repr

/-- The mutable instance state of `SpreadFeeService`. -/
structure St where
  volatilityCache : List (String × VolCacheEntry)
deriving DecidableEq, Repr

/-- One external call made by `SpreadFeeService`: a CoinGecko
`market_chart` request for a token id over a day window. -/
inductive Call where
  | marketChart (token : String) (days : ℤ)
deriving DecidableEq, Repr

/-- The request environment: the current time, the provider's price
series for each `(token, days)` request, and `Math.sqrt` abstracted as
`sq`. -/
structure Env where
  now : ℤ
  history : String → ℤ → Except FetchErr (List (ℤ × ℚ))
  sq : ℚ → ℚ

/-- Embedding of `CACHE_TTL = 15 * 60 * 1000` (milliseconds). -/
def CACHE_TTL : ℤ := 15 * 60 * 1000

/-- Embedding of the literal `tokenMap` inside
`SpreadFeeService.normalizeTokenName`. -/
def tokenMap : List (String × String) :=
  [("eth", "ethereum"), ("btc", "bitcoin"), ("sol", "solana"),
   ("avax", "avalanche-2"), ("bnb", "binancecoin"),
   ("matic", "matic-network"), ("dot", "polkadot"),
   ("link", "chainlink"), ("uni", "uniswap"), ("ada", "cardano"),
   ("doge", "dogecoin"), ("shib", "shiba-inu")]

/-- Embedding of `SpreadFeeService.normalizeTokenName`. -/
def normalizeTokenName (token : String) : String :=
  let normalized := jsTrim (jsToLower token)
  match mapGet tokenMap normalized with
  | some mapped => mapped
  | none => normalized

/-- Embedding of `SpreadFeeService.calculateVolatility`
(src/services/spreadFeeService.ts lines 108-135), with `Math.sqrt`
abstracted as `sq`.  The percent-change loop over indices, the
`reduce`-based mean, the population variance (divisor = number of
returns) and the annualize-then-rescale steps are kept as in the
source. -/
def calculateVolatility (sq : ℚ → ℚ) (prices : List (ℤ × ℚ)) : ℚ :=
  if prices.length < 2 then 0
  else
    let priceValues := prices.map (fun pair => pair.2)
    let pctChanges := (List.range' 1 (priceValues.length - 1)).map
      (fun i => (priceValues.getD i 0 - priceValues.getD (i - 1) 0) /
        priceValues.getD (i - 1) 0)
    let mean := pctChanges.foldl (· + ·) 0 / (pctChanges.length : ℚ)
    let squaredDifferences := pctChanges.map (fun val => (val - mean) ^ 2)
    let variance :=
      squaredDifferences.foldl (· + ·) 0 / (pctChanges.length : ℚ)
    let stdDev := sq variance
    let samplesPerDay := pctChanges.length
    let annualizedVolatility := stdDev * sq (365 * (samplesPerDay : ℚ))
    let dailyVolatility := annualizedVolatility / sq 365
    dailyVolatility

/-- Embedding of `SpreadFeeService.calculateRecommendedSpreadFee`
(src/services/spreadFeeService.ts lines 142-152). -/
def calculateRecommendedSpreadFee (volatility : ℚ) : ℚ :=
  let baseFee := (0.001 : ℚ)
  let volatilityComponent := volatility * 0.5
  let maxFee := (0.03 : ℚ)
  let totalFee := baseFee + volatilityComponent
  min totalFee maxFee

/-- How `calculateSpreadFee` (together with `fetchPriceHistory`'s 404
translation) maps a raw provider failure to the `ServiceError` thrown;
the 404 message interpolates the normalized token name, which is what
`fetchPriceHistory` receives. -/
def spreadFetchError (normalizedToken : String) : FetchErr → ServiceError
  | FetchErr.notFound =>
      ⟨"Token " ++ normalizedToken ++ " not found on CoinGecko", 404⟩
  | FetchErr.rateLimited =>
      ⟨"CoinGecko API rate limit exceeded. Please try again later.", 429⟩
  | FetchErr.upstream msg =>
      ⟨"Failed to calculate spread fee: " ++ msg, 500⟩

/-- The cache-miss path of `calculateSpreadFee`: fetch the price
history once, derive the volatility and recommended fee, store and
return the result. -/
def calculateSpreadFeeFetch (env : Env) (st : St)
    (normalizedToken cacheKey : String) (days : ℤ) :
    Except ServiceError VolatilityResult × St × List Call :=
  match env.history normalizedToken days with
  | Except.error fe =>
      (Except.error (spreadFetchError normalizedToken fe), st,
       [Call.marketChart normalizedToken days])
  | Except.ok prices =>
      let volatility := calculateVolatility env.sq prices
      let recommendedSpreadFee := calculateRecommendedSpreadFee volatility
      let result : VolatilityResult :=
        { token := normalizedToken, volatility := volatility,
          recommendedSpreadFee := recommendedSpreadFee,
          timeframe := TokenFeeService.timeframeStr days, timestamp := env.now }
      (Except.ok result,
       { volatilityCache := mapSet st.volatilityCache cacheKey ⟨result, env.now⟩ },
       [Call.marketChart normalizedToken days])

/-- Embedding of `SpreadFeeService.calculateSpreadFee`
(src/services/spreadFeeService.ts lines 43-101). -/
def calculateSpreadFee (env : Env) (st : St) (token : String) (days : ℤ) :
    Except ServiceError VolatilityResult × St × List Call :=
  if days < 1 ∨ 30 < days then
    (Except.error ⟨"Days parameter must be between 1 and 30", 400⟩, st, [])
  else
    let normalizedToken := normalizeTokenName token
    let cacheKey := normalizedToken ++ "-" ++ toString days
    match mapGet st.volatilityCache cacheKey with
    | some cachedResult =>
        if env.now - cachedResult.timestamp < CACHE_TTL then
          (Except.ok cachedResult.result, st, [])
        else calculateSpreadFeeFetch env st normalizedToken cacheKey days
    | none => calculateSpreadFeeFetch env st normalizedToken cacheKey days

end SpreadFeeService

namespace TokenFeeServiceCG

/-!
Embedding of the CoinGecko variant of `TokenFeeService` found in the
repository (an unnamed source file).  It differs from
src/services/tokenFeeService.ts in its provider (CoinGecko `simple/price`
and `market_chart`), its token normalization, its statistical volatility
estimator, and — decisively for the fee-discipline claim — in computing
`amountAfterFees = amount + totalFeeAmount` in `calculateFees`.  The
arithmetic of this variant is embedded over `ℚ` (the claims touching it
only exercise finite values) with `Math.sqrt` abstracted as `sq`.
-/

/-- The `TokenPriceData` interface of the CoinGecko variant. -/
structure TokenPriceData where
  token : String
  tokenSymbol : String
  priceUsd : ℚ
  priceIdr : ℚ
  timestamp : ℤ
deriving DecidableEq, Repr

/-- The `FeeCalculationResult` interface of the CoinGecko variant. -/
structure FeeCalculationResult where
  token : String
  tokenSymbol : String
  priceUsd : ℚ
  priceIdr : ℚ
  adminFeePercentage : ℚ
  adminFeeAmount : ℚ
  spreadFeePercentage : ℚ
  spreadFeeAmount : ℚ
  totalFeePercentage : ℚ
  totalFeeAmount : ℚ
  amountBeforeFees : ℚ
  amountAfterFees : ℚ
  exchangeRate : ℚ
  timestamp : ℤ
deriving DecidableEq, Repr

/-- The `VolatilityResult` interface of the CoinGecko variant. -/
structure VolatilityResult where
  token : String
  volatility : ℚ
  recommendedSpreadFee : ℚ
  timeframe : String
  timestamp : ℤ
deriving DecidableEq, Repr

/-- A `priceCache` entry. -/
structure PriceCacheEntry where
  data : TokenPriceData
  timestamp : ℤ
deriving DecidableEq, Repr

/-- A `volatilityCache` entry. -/
structure VolCacheEntry where
  result : VolatilityResult
  timestamp : ℤ
deriving DecidableEq, Repr

/-- The mutable instance state of the CoinGecko variant. -/
structure St where
  priceCache : List (String × PriceCacheEntry)
  volatilityCache : List (String × VolCacheEntry)
deriving DecidableEq, Repr

/-- External calls of the CoinGecko variant. -/
inductive Call where
  | simplePrice (token : String)
  | marketChart (token : String) (days : ℤ)
deriving DecidableEq, Repr

/-- The request environment of the CoinGecko variant. -/
structure Env where
  now : ℤ
  idrToUsdRate : ℚ
  price : String → Except FetchErr ℚ
  history : String → ℤ → Except FetchErr (List (ℤ × ℚ))
  sq : ℚ → ℚ

/-- `CACHE_TTL = 5 * 60 * 1000` (milliseconds). -/
def CACHE_TTL : ℤ := 5 * 60 * 1000

/-- `ADMIN_FEE_PERCENTAGE = 0.005`. -/
def ADMIN_FEE_PERCENTAGE : ℚ := 0.005

/-- `DEFAULT_SPREAD_FEE_PERCENTAGE = 0.002`. -/
def DEFAULT_SPREAD_FEE_PERCENTAGE : ℚ := 0.002

/-- The literal `tokenMap` inside this variant's `normalizeTokenName`
(identical to the SpreadFeeService table). -/
def tokenMap : List (String × String) :=
  [("eth", "ethereum"), ("btc", "bitcoin"), ("sol", "solana"),
   ("avax", "avalanche-2"), ("bnb", "binancecoin"),
   ("matic", "matic-network"), ("dot", "polkadot"),
   ("link", "chainlink"), ("uni", "uniswap"), ("ada", "cardano"),
   ("doge", "dogecoin"), ("shib", "shiba-inu")]

/-- This variant's `normalizeTokenName`. -/
def normalizeTokenName (token : String) : String :=
  let normalized := jsTrim (jsToLower token)
  match mapGet tokenMap normalized with
  | some mapped => mapped
  | none => normalized

/-- The literal `symbolMap` inside this variant's `getTokenSymbol`. -/
def symbolMap : List (String × String) :=
  [("ethereum", "ETH"), ("bitcoin", "BTC"), ("solana", "SOL"),
   ("avalanche-2", "AVAX"), ("binancecoin", "BNB"),
   ("matic-network", "MATIC"), ("polkadot", "DOT"),
   ("chainlink", "LINK"), ("uniswap", "UNI"), ("cardano", "ADA"),
   ("dogecoin", "DOGE"), ("shiba-inu", "SHIB")]

/-- This variant's `getTokenSymbol`. -/
def getTokenSymbol (normalizedToken : String) : String :=
  match mapGet symbolMap normalizedToken with
  | some symbol => symbol
  | none => jsToUpper normalizedToken

/-- This variant's `getTokenPrice` catch-block error mapping. -/
def priceFetchError (token : String) : FetchErr → ServiceError
  | FetchErr.notFound =>
      ⟨"Token " ++ token ++ " not found on CoinGecko", 404⟩
  | FetchErr.rateLimited =>
      ⟨"CoinGecko API rate limit exceeded. Please try again later.", 429⟩
  | FetchErr.upstream msg =>
      ⟨"Failed to get token price: " ++ msg, 500⟩

/-- The cache-miss path of this variant's `getTokenPrice`. -/
def getTokenPriceFetch (env : Env) (st : St) (token normalizedToken : String) :
    Except ServiceError TokenPriceData × St × List Call :=
  match env.price normalizedToken with
  | Except.error fe =>
      (Except.error (priceFetchError token fe), st,
       [Call.simplePrice normalizedToken])
  | Except.ok priceUsd =>
      let priceIdr := priceUsd * env.idrToUsdRate
      let result : TokenPriceData :=
        { token := normalizedToken,
          tokenSymbol := getTokenSymbol normalizedToken,
          priceUsd := priceUsd, priceIdr := priceIdr, timestamp := env.now }
      (Except.ok result,
       { st with
          priceCache := mapSet st.priceCache normalizedToken ⟨result, env.now⟩ },
       [Call.simplePrice normalizedToken])

/-- This variant's `getTokenPrice`. -/
def getTokenPrice (env : Env) (st : St) (token : String) :
    Except ServiceError TokenPriceData × St × List Call :=
  let normalizedToken := normalizeTokenName token
  match mapGet st.priceCache normalizedToken with
  | some cachedData =>
      if env.now - cachedData.timestamp < CACHE_TTL then
        (Except.ok cachedData.data, st, [])
      else getTokenPriceFetch env st token normalizedToken
  | none => getTokenPriceFetch env st token normalizedToken

/-- This variant's `calculateVolatilityFromPrices`: textually the same
statistical estimator as `SpreadFeeService.calculateVolatility`. -/
def calculateVolatilityFromPrices (sq : ℚ → ℚ) (prices : List (ℤ × ℚ)) : ℚ :=
  if prices.length < 2 then 0
  else
    let priceValues := prices.map (fun pair => pair.2)
    let pctChanges := (List.range' 1 (priceValues.length - 1)).map
      (fun i => (priceValues.getD i 0 - priceValues.getD (i - 1) 0) /
        priceValues.getD (i - 1) 0)
    let mean := pctChanges.foldl (· + ·) 0 / (pctChanges.length : ℚ)
    let squaredDifferences := pctChanges.map (fun val => (val - mean) ^ 2)
    let variance :=
      squaredDifferences.foldl (· + ·) 0 / (pctChanges.length : ℚ)
    let stdDev := sq variance
    let samplesPerDay := pctChanges.length
    let annualizedVolatility := stdDev * sq (365 * (samplesPerDay : ℚ))
    let dailyVolatility := annualizedVolatility / sq 365
    dailyVolatility

/-- This variant's `calculateRecommendedSpreadFee`
(base 0.002, weight 0.5, cap 0.02). -/
def calculateRecommendedSpreadFee (volatility : ℚ) : ℚ :=
  let baseFee := (0.002 : ℚ)
  let volatilityComponent := volatility * 0.5
  let maxFee := (0.02 : ℚ)
  let totalFee := baseFee + volatilityComponent
  min totalFee maxFee

/-- This variant's `calculateVolatility` catch-block error mapping; the
404 message interpolates the normalized token name passed to
`fetchPriceHistory`. -/
def volFetchError (normalizedToken : String) : FetchErr → ServiceError
  | FetchErr.notFound =>
      ⟨"Token " ++ normalizedToken ++ " not found on CoinGecko", 404⟩
  | FetchErr.rateLimited =>
      ⟨"CoinGecko API rate limit exceeded. Please try again later.", 429⟩
  | FetchErr.upstream msg =>
      ⟨"Failed to calculate volatility: " ++ msg, 500⟩

/-- The cache-miss path of this variant's `calculateVolatility`. -/
def calculateVolatilityFetch (env : Env) (st : St)
    (normalizedToken cacheKey : String) (days : ℤ) :
    Except ServiceError VolatilityResult × St × List Call :=
  match env.history normalizedToken days with
  | Except.error fe =>
      (Except.error (volFetchError normalizedToken fe), st,
       [Call.marketChart normalizedToken days])
  | Except.ok prices =>
      let volatility := calculateVolatilityFromPrices env.sq prices
      let recommendedSpreadFee := calculateRecommendedSpreadFee volatility
      let result : VolatilityResult :=
        { token := normalizedToken, volatility := volatility,
          recommendedSpreadFee := recommendedSpreadFee,
          timeframe := TokenFeeService.timeframeStr days, timestamp := env.now }
      (Except.ok result,
       { st with
          volatilityCache := mapSet st.volatilityCache cacheKey ⟨result, env.now⟩ },
       [Call.marketChart normalizedToken days])

/-- This variant's `calculateVolatility`. -/
def calculateVolatility (env : Env) (st : St) (token : String) (days : ℤ) :
    Except ServiceError VolatilityResult × St × List Call :=
  if days < 1 ∨ 30 < days then
    (Except.error ⟨"Days parameter must be between 1 and 30", 400⟩, st, [])
  else
    let normalizedToken := normalizeTokenName token
    let cacheKey := normalizedToken ++ "-" ++ toString days
    match mapGet st.volatilityCache cacheKey with
    | some cachedResult =>
        if env.now - cachedResult.timestamp < CACHE_TTL then
          (Except.ok cachedResult.result, st, [])
        else calculateVolatilityFetch env st normalizedToken cacheKey days
    | none => calculateVolatilityFetch env st normalizedToken cacheKey days

/-- This variant's spread-fee resolution step inside `calculateFees`. -/
def resolveSpreadFee (env : Env) (st : St) (token : String)
    (customSpreadFee : Option ℚ) : ℚ × St × List Call :=
  match customSpreadFee with
  | some f => (f, st, [])
  | none =>
      match calculateVolatility env st token 1 with
      | (Except.ok v, st', c) => (v.recommendedSpreadFee, st', c)
      | (Except.error _, st', c) => (DEFAULT_SPREAD_FEE_PERCENTAGE, st', c)

/-- This variant's `calculateFees`: note the ADDITION discipline
`amountAfterFees = amount + totalFeeAmount` (fees charged on top),
unlike the deduction in src/services/tokenFeeService.ts. -/
def calculateFees (env : Env) (st : St) (token : String) (amount : ℚ)
    (customSpreadFee : Option ℚ) :
    Except ServiceError FeeCalculationResult × St × List Call :=
  if amount ≤ 0 then
    (Except.error ⟨"Amount must be greater than 0", 400⟩, st, [])
  else
    match getTokenPrice env st token with
    | (Except.error e, st1, c1) => (Except.error e, st1, c1)
    | (Except.ok priceData, st1, c1) =>
        match resolveSpreadFee env st1 token customSpreadFee with
        | (spreadFeePercentage, st2, c2) =>
            let adminFeeAmount := amount * ADMIN_FEE_PERCENTAGE
            let spreadFeeAmount := amount * spreadFeePercentage
            let totalFeeAmount := adminFeeAmount + spreadFeeAmount
            let totalFeePercentage := ADMIN_FEE_PERCENTAGE + spreadFeePercentage
            let amountAfterFees := amount + totalFeeAmount
            (Except.ok
              { token := priceData.token, tokenSymbol := priceData.tokenSymbol,
                priceUsd := priceData.priceUsd, priceIdr := priceData.priceIdr,
                adminFeePercentage := ADMIN_FEE_PERCENTAGE,
                adminFeeAmount := adminFeeAmount,
                spreadFeePercentage := spreadFeePercentage,
                spreadFeeAmount := spreadFeeAmount,
                totalFeePercentage := totalFeePercentage,
                totalFeeAmount := totalFeeAmount,
                amountBeforeFees := amount,
                amountAfterFees := amountAfterFees,
                exchangeRate := priceData.priceIdr, timestamp := env.now },
             st2, c1 ++ c2)

end TokenFeeServiceCG

/-!
Specification-side definitions.  These follow the words of the spec
(section 4.3): percent returns between consecutive samples, their mean
and population variance.  The claims compare the embedded source code
against these.
-/

/-- Percent changes between consecutive samples of a price list:
`r_i = (p_i - p_(i-1)) / p_(i-1)`, written positionally over the list
and its tail. -/
def pctReturns (priceValues : List ℚ) : List ℚ :=
  List.zipWith (fun prev cur => (cur - prev) / prev) priceValues priceValues.tail

/-- Arithmetic mean of a list of rationals. -/
def listMean (xs : List ℚ) : ℚ := xs.sum / (xs.length : ℚ)

/-- Population variance (divisor = count, not count - 1). -/
def popVariance (xs : List ℚ) : ℚ :=
  (xs.map (fun x => (x - listMean xs) ^ 2)).sum / (xs.length : ℚ)

/-!
Concrete fixtures used by witnesses and counterexamples: a cached
Ethereum quote at 1800 USD with reference rate 15500 (the spec's
concrete scenario, section 8), against a provider that is currently
failing — so the price is served from the cache and any volatility
lookup fails.
-/

/-- A cached quote: 1800 USD, 1800 * 15500 = 27,900,000 IDR. -/
def pd0 : TokenFeeService.TokenPriceData :=
  { token := "ethereum", tokenSymbol := "ETH", priceUsd := JSNum.num 1800,
    priceIdr := JSNum.num 27900000, timestamp := 0 }

/-- Environment at time 0 whose provider is down. -/
def env0 : TokenFeeService.Env :=
  { now := 0, idrToUsdRate := JSNum.num 15500,
    quote := fun _ => Except.error (FetchErr.upstream "provider down"),
    sqrtJS := fun _ => JSNum.nan }

/-- State holding the fresh cached Ethereum quote `pd0`. -/
def st0 : TokenFeeService.St :=
  { priceCache := [("ethereum", ⟨pd0, 0⟩)], volatilityCache := [] }

/-- Environment for the CoinGecko variant: price available, history
provider down. -/
def envCG : TokenFeeServiceCG.Env :=
  { now := 0, idrToUsdRate := 15500,
    price := fun _ => Except.ok 1800,
    history := fun _ _ => Except.error (FetchErr.upstream "provider down"),
    sq := fun q => q }

/-- Empty caches for the CoinGecko variant. -/
def stCG : TokenFeeServiceCG.St := { priceCache := [], volatilityCache := [] }

/-- A cached volatility result for the spread-fee service. -/
def volres0 : SpreadFeeService.VolatilityResult :=
  { token := "ethereum", volatility := 0.04, recommendedSpreadFee := 0.021,
    timeframe := "1 day", timestamp := 0 }

/-- Spread-fee environment at time 0: a two-sample history, identity in
place of `Math.sqrt`. -/
def envS : SpreadFeeService.Env :=
  { now := 0, history := fun _ _ => Except.ok [(0, 1), (1, 2)], sq := fun q => q }

/-- Spread-fee state holding a fresh cached entry for `ethereum-1`. -/
def stS : SpreadFeeService.St :=
  { volatilityCache := [("ethereum-1", ⟨volres0, 0⟩)] }

/-- Spread-fee state whose `ethereum-1` entry is expired at `now = 0`
(stored 20 minutes in the past). -/
def stSstale : SpreadFeeService.St :=
  { volatilityCache := [("ethereum-1", ⟨volres0, -1200000⟩)] }

/-- Token-fee state whose cached Ethereum quote is expired at
`now = 0`. -/
def st0stale : TokenFeeService.St :=
  { priceCache := [("ethereum", ⟨pd0, -1200000⟩)], volatilityCache := [] }

/-- A cached volatility result for the main token-fee service. -/
def volresT : TokenFeeService.VolatilityResult :=
  { token := "ethereum", volatility := JSNum.num 0.04,
    recommendedSpreadFee := JSNum.num 0.022, timeframe := "1 day",
    timestamp := 0 }

/-- Token-fee state holding a fresh cached volatility entry for
`ethereum-1`. -/
def stv0 : TokenFeeService.St :=
  { priceCache := [], volatilityCache := [("ethereum-1", ⟨volresT, 0⟩)] }

/-- A three-sample price series. -/
def prices0 : List (ℤ × ℚ) := [(0, 4), (1, 2), (2, 3)]

/-- The fee breakdown `calculateFees` produces for 1 `eth` against the
cached `pd0` quote with a pinned spread fee of `0.002` (the spec's
section-8 scenario), with the arithmetic left in the operation shape
the source computes it in. -/
def feeRec0 : TokenFeeService.FeeCalculationResult :=
  { token := "ethereum", tokenSymbol := "ETH", priceUsd := JSNum.num 1800,
    priceIdr := JSNum.num 27900000,
    adminFeePercentage := JSNum.num 0.005,
    adminFeeAmount := (JSNum.num 1).mul (JSNum.num 0.005),
    spreadFeePercentage := JSNum.num 0.002,
    spreadFeeAmount := (JSNum.num 1).mul (JSNum.num 0.002),
    totalFeePercentage := (JSNum.num 0.005).add (JSNum.num 0.002),
    totalFeeAmount := ((JSNum.num 1).mul (JSNum.num 0.005)).add
      ((JSNum.num 1).mul (JSNum.num 0.002)),
    amountBeforeFees := JSNum.num 1,
    amountAfterFees := (JSNum.num 1).sub
      (((JSNum.num 1).mul (JSNum.num 0.005)).add
        ((JSNum.num 1).mul (JSNum.num 0.002))),
    exchangeRate := JSNum.num 27900000, timestamp := 0 }

/-!
Theorems.  First the general-purpose lemmas about the embedding
(JS-number arithmetic on finite values, association-list maps, list
computations), then one theorem per claim, each preceded by a doc
comment naming the claim.
-/

@[simp] theorem JSNum.add_num (a b : ℚ) :
    JSNum.add (JSNum.num a) (JSNum.num b) = JSNum.num (a + b) := rfl

@[simp] theorem JSNum.neg_num (a : ℚ) :
    JSNum.neg (JSNum.num a) = JSNum.num (-a) := rfl

@[simp] theorem JSNum.sub_num (a b : ℚ) :
    JSNum.sub (JSNum.num a) (JSNum.num b) = JSNum.num (a + -b) := rfl

@[simp] theorem JSNum.mul_num (a b : ℚ) :
    JSNum.mul (JSNum.num a) (JSNum.num b) = JSNum.num (a * b) := rfl

@[simp] theorem JSNum.le_num (a b : ℚ) :
    JSNum.le (JSNum.num a) (JSNum.num b) = decide (a ≤ b) := rfl

theorem JSNum.div_num_of_ne (a b : ℚ) (h : b ≠ 0) :
    JSNum.div (JSNum.num a) (JSNum.num b) = JSNum.num (a / b) := by
  simp [JSNum.div, h]

theorem JSNum.div_num_pos_zero (a : ℚ) (h : 0 < a) :
    JSNum.div (JSNum.num a) (JSNum.num 0) = JSNum.inf := by
  simp [JSNum.div, h, h.ne']

theorem JSNum.minJS_num (a b : ℚ) :
    JSNum.minJS (JSNum.num a) (JSNum.num b) = JSNum.num (min a b) := by
  by_cases h : a ≤ b
  · simp [JSNum.minJS, JSNum.le, h, min_eq_left h]
  · simp [JSNum.minJS, JSNum.le, h, min_eq_right (le_of_not_le h)]

theorem mapGet_mapSet_self {α : Type} (m : List (String × α)) (k : String) (v : α) :
    mapGet (mapSet m k v) k = some v := by
  induction m with
  | nil => simp [mapGet, mapSet]
  | cons hd tl ih =>
      obtain ⟨k', v'⟩ := hd
      by_cases h : k' = k
      · simp [mapGet, mapSet, h]
      · simp [mapGet, mapSet, h, ih]

theorem foldl_add_eq_sum (l : List ℚ) : ∀ a : ℚ, l.foldl (· + ·) a = a + l.sum := by
  induction l with
  | nil => intro a; simp
  | cons x xs ih =>
      intro a
      simp only [List.foldl_cons, List.sum_cons, ih]
      ring

theorem range'_map_shift (g : ℕ → ℚ) :
    ∀ (n s : ℕ),
      (List.range' (s + 1) n).map g = (List.range' s n).map (fun i => g (i + 1)) := by
  intro n
  induction n with
  | zero => intro s; simp
  | succ m ih =>
      intro s
      rw [List.range'_succ, List.range'_succ]
      simp only [List.map_cons]
      exact congrArg (List.cons (g (s + 1))) (ih (s + 1))

theorem range'_getD_eq_zipWith (f : ℚ → ℚ → ℚ) :
    ∀ (l : List ℚ) (a : ℚ),
      (List.range' 1 l.length).map
          (fun i => f ((a :: l).getD (i - 1) 0) ((a :: l).getD i 0)) =
        List.zipWith f (a :: l) l := by
  intro l
  induction l with
  | nil => intro a; simp
  | cons b l' ih =>
      intro a
      rw [List.length_cons, List.range'_succ]
      simp only [List.map_cons, List.zipWith_cons_cons]
      refine congrArg₂ (List.cons) rfl ?_
      rw [range'_map_shift]
      rw [← ih b]
      refine List.map_congr_left ?_
      intro i hi
      obtain ⟨j, hj⟩ := Nat.le.dest (List.mem_range'_1.mp hi).1
      subst hj
      simp [List.getD_cons_succ, Nat.add_comm 1 j]

theorem pctChanges_eq_pctReturns (pv : List ℚ) (h : 1 ≤ pv.length) :
    (List.range' 1 (pv.length - 1)).map
        (fun i => (pv.getD i 0 - pv.getD (i - 1) 0) / pv.getD (i - 1) 0) =
      pctReturns pv := by
  cases pv with
  | nil => simp at h
  | cons a l =>
      simpa [pctReturns] using
        range'_getD_eq_zipWith (fun prev cur => (cur - prev) / prev) l a

theorem pctReturns_length (pv : List ℚ) :
    (pctReturns pv).length = pv.length - 1 := by
  simp [pctReturns]

theorem spread_vol_closed (sq : ℚ → ℚ) (prices : List (ℤ × ℚ))
    (h : 2 ≤ prices.length) :
    SpreadFeeService.calculateVolatility sq prices =
      sq (popVariance (pctReturns (prices.map (fun pair => pair.2)))) *
        sq (365 * ((pctReturns (prices.map (fun pair => pair.2))).length : ℚ)) /
        sq 365 := by
  have hlen : 1 ≤ (prices.map (fun pair => pair.2)).length := by
    simp; omega
  unfold SpreadFeeService.calculateVolatility
  rw [if_neg (by omega)]
  have hpct := pctChanges_eq_pctReturns (prices.map (fun pair => pair.2)) hlen
  rw [List.length_map] at hpct
  simp only [List.length_map, hpct, foldl_add_eq_sum, zero_add, listMean,
    popVariance]

theorem popVariance_nonneg (xs : List ℚ) : 0 ≤ popVariance xs := by
  unfold popVariance
  apply div_nonneg
  · apply List.sum_nonneg
    intro x hx
    obtain ⟨y, _, rfl⟩ := List.mem_map.mp hx
    exact sq_nonneg _
  · positivity

/-- C3: for every volatility `v ≥ 0`, the recommended spread fee equals
`min (baseFee + v * volatilityWeight) maxFee` with weight `0.5` in both
services (base `0.001`, cap `0.03` in `SpreadFeeService`; base `0.002`,
cap `0.02` in `TokenFeeService`), always lies in `[baseFee, maxFee]`,
and is monotonically non-decreasing in `v`. -/
theorem c3_recommended_spread_fee (v w : ℚ) (hv : 0 ≤ v) (hvw : v ≤ w) :
    SpreadFeeService.calculateRecommendedSpreadFee v =
      min (0.001 + v * 0.5) 0.03 ∧
    0.001 ≤ SpreadFeeService.calculateRecommendedSpreadFee v ∧
    SpreadFeeService.calculateRecommendedSpreadFee v ≤ 0.03 ∧
    SpreadFeeService.calculateRecommendedSpreadFee v ≤
      SpreadFeeService.calculateRecommendedSpreadFee w ∧
    TokenFeeService.calculateRecommendedSpreadFee (JSNum.num v) =
      JSNum.num (min (0.002 + v * 0.5) 0.02) ∧
    0.002 ≤ min (0.002 + v * 0.5) (0.02 : ℚ) ∧
    min (0.002 + v * 0.5) (0.02 : ℚ) ≤ 0.02 ∧
    min (0.002 + v * 0.5) (0.02 : ℚ) ≤ min (0.002 + w * 0.5) 0.02 := by
  have hS : ∀ u : ℚ, SpreadFeeService.calculateRecommendedSpreadFee u =
      min (0.001 + u * 0.5) 0.03 := fun u => rfl
  refine ⟨hS v, ?_, ?_, ?_, ?_, ?_, ?_, ?_⟩
  · rw [hS v]; exact le_min (by linarith) (by norm_num)
  · rw [hS v]; exact min_le_right _ _
  · rw [hS v, hS w]; exact min_le_min (by linarith) le_rfl
  · simp [TokenFeeService.calculateRecommendedSpreadFee, JSNum.minJS_num]
  · exact le_min (by linarith) (by norm_num)
  · exact min_le_right _ _
  · exact min_le_min (by linarith) le_rfl

theorem c3_recommended_spread_fee_witness :
    SpreadFeeService.calculateRecommendedSpreadFee 0 =
      min (0.001 + 0 * 0.5) 0.03 ∧
    0.001 ≤ SpreadFeeService.calculateRecommendedSpreadFee 0 ∧
    SpreadFeeService.calculateRecommendedSpreadFee 0 ≤ 0.03 ∧
    SpreadFeeService.calculateRecommendedSpreadFee 0 ≤
      SpreadFeeService.calculateRecommendedSpreadFee 1 ∧
    TokenFeeService.calculateRecommendedSpreadFee (JSNum.num 0) =
      JSNum.num (min (0.002 + 0 * 0.5) 0.02) ∧
    0.002 ≤ min (0.002 + 0 * 0.5) (0.02 : ℚ) ∧
    min (0.002 + 0 * 0.5) (0.02 : ℚ) ≤ 0.02 ∧
    min (0.002 + 0 * 0.5) (0.02 : ℚ) ≤ min (0.002 + 1 * 0.5) 0.02 :=
  c3_recommended_spread_fee 0 1 (by norm_num) (by norm_num)

/-- C4: on any series with at least 2 samples, the statistical estimator
computes exactly the percent changes `r_i = (p_i - p_(i-1)) / p_(i-1)`
between consecutive samples, the population variance of those returns
(divisor = count of returns), `stdDev = sqrt variance`, the annualized
figure `stdDev * sqrt (365 * samplesPerDay)` with `samplesPerDay` the
count of return observations (`prices.length - 1`), and returns
`dailyVolatility = annualized / sqrt 365`; the CoinGecko variant's
`calculateVolatilityFromPrices` is the same function. -/
theorem c4_statistical_estimator (sq : ℚ → ℚ) (prices : List (ℤ × ℚ))
    (h : 2 ≤ prices.length) :
    SpreadFeeService.calculateVolatility sq prices =
      sq (popVariance (pctReturns (prices.map (fun pair => pair.2)))) *
        sq (365 * ((pctReturns (prices.map (fun pair => pair.2))).length : ℚ)) /
        sq 365 ∧
    (pctReturns (prices.map (fun pair => pair.2))).length = prices.length - 1 ∧
    TokenFeeServiceCG.calculateVolatilityFromPrices sq prices =
      SpreadFeeService.calculateVolatility sq prices :=
  ⟨spread_vol_closed sq prices h, by rw [pctReturns_length]; simp, rfl⟩

theorem c4_statistical_estimator_witness :
    SpreadFeeService.calculateVolatility id prices0 =
      id (popVariance (pctReturns (prices0.map (fun pair => pair.2)))) *
        id (365 * ((pctReturns (prices0.map (fun pair => pair.2))).length : ℚ)) /
        id 365 ∧
    (pctReturns (prices0.map (fun pair => pair.2))).length =
      prices0.length - 1 ∧
    TokenFeeServiceCG.calculateVolatilityFromPrices id prices0 =
      SpreadFeeService.calculateVolatility id prices0 :=
  c4_statistical_estimator id prices0 (by decide)

/-- C5: the computed daily volatility is exactly 0 for a price series of
length < 2, and non-negative for every series of positive prices
(assuming only that the abstracted `Math.sqrt` is non-negative on
non-negative inputs, as the real one is). -/
theorem c5_volatility_guard_and_nonneg (sq : ℚ → ℚ) (prices : List (ℤ × ℚ))
    (hsq : ∀ x : ℚ, 0 ≤ x → 0 ≤ sq x) :
    (prices.length < 2 → SpreadFeeService.calculateVolatility sq prices = 0) ∧
    ((∀ pair ∈ prices, 0 < pair.2) →
      0 ≤ SpreadFeeService.calculateVolatility sq prices) := by
  constructor
  · intro hl
    unfold SpreadFeeService.calculateVolatility
    rw [if_pos hl]
  · intro _
    by_cases hl : prices.length < 2
    · unfold SpreadFeeService.calculateVolatility
      rw [if_pos hl]
    · rw [spread_vol_closed sq prices (by omega)]
      refine div_nonneg (mul_nonneg ?_ ?_) (hsq _ (by norm_num))
      · exact hsq _ (popVariance_nonneg _)
      · exact hsq _ (by positivity)

theorem c5_volatility_guard_and_nonneg_witness :
    0 ≤ SpreadFeeService.calculateVolatility id prices0 ∧
    SpreadFeeService.calculateVolatility id [((0 : ℤ), (5 : ℚ))] = 0 :=
  ⟨(c5_volatility_guard_and_nonneg id prices0 (fun _ h => h)).2 (by decide),
   (c5_volatility_guard_and_nonneg id [((0 : ℤ), (5 : ℚ))]
      (fun _ h => h)).1 (by decide)⟩

/-- C9 counterexample: the claim says that for an unknown token the
display symbol is the upper-cased form of the lower-cased trimmed
input; but the source computes `token.toUpperCase()` of the ORIGINAL
argument, so the input `" zap "` resolves to canonical id `"zap"` with
display symbol `" ZAP "` (whitespace preserved), not `"ZAP"`. -/
theorem c9_counterexample :
    Tokens.normalizeTokenId " zap " = "zap" ∧
    TokenFeeService.resolvedSymbol (Tokens.normalizeTokenId " zap ") " zap " =
      " ZAP " ∧
    (" ZAP " : String) ≠ "ZAP" :=
  ⟨by decide, by decide, by decide⟩

/-- C9 amended: the resolver lower-cases and trims the input and looks
it up in the static alias tables; on a match it returns the canonical
id and the matching entry's display symbol (e.g. `eth` resolves to
`ethereum`/`ETH`); on no match the canonical id is the lower-cased
trimmed input and the display symbol is the upper-cased form of the
ORIGINAL (untrimmed) argument; resolution is a total function. -/
theorem c9_token_resolution (token : String)
    (hti : mapGet Tokens.TOKEN_INFO (jsTrim (jsToLower token)) = none)
    (hal : mapGet Tokens.tokenIdAliasMap (jsTrim (jsToLower token)) = none)
    (hfind : Tokens.TOKEN_INFO.find?
        (fun p => p.2.id == jsTrim (jsToLower token)) = none) :
    Tokens.normalizeTokenId token = jsTrim (jsToLower token) ∧
    TokenFeeService.resolvedSymbol (Tokens.normalizeTokenId token) token =
      jsToUpper token ∧
    Tokens.normalizeTokenId "eth" = "ethereum" ∧
    TokenFeeService.resolvedSymbol (Tokens.normalizeTokenId "eth") "eth" =
      "ETH" := by
  have h1 : Tokens.normalizeTokenId token = jsTrim (jsToLower token) := by
    simp only [Tokens.normalizeTokenId, hti, hal]
  refine ⟨h1, ?_, by decide, by decide⟩
  rw [h1]
  unfold TokenFeeService.resolvedSymbol
  rw [hfind]

theorem c9_token_resolution_witness :
    Tokens.normalizeTokenId " zap " = jsTrim (jsToLower " zap ") ∧
    TokenFeeService.resolvedSymbol (Tokens.normalizeTokenId " zap ") " zap " =
      jsToUpper " zap " ∧
    Tokens.normalizeTokenId "eth" = "ethereum" ∧
    TokenFeeService.resolvedSymbol (Tokens.normalizeTokenId "eth") "eth" =
      "ETH" :=
  c9_token_resolution " zap " (by decide) (by decide) (by decide)

/-- C6: a non-positive amount makes `calculateFees`,
`calculateIdrxAmount` and `calculateSourceAmount` fail with the
400-status `ServiceError`, and an out-of-range `days` makes
`calculateVolatility` (and `SpreadFeeService.calculateSpreadFee`) fail
with the 400-status `ServiceError`; in every case the state is returned
unchanged and the provider-call list is empty, so the error precedes
any network call or cache write. -/
theorem c6_input_validation (env : TokenFeeService.Env)
    (st : TokenFeeService.St) (token : String) (amount : JSNum)
    (custom : Option JSNum) (days : ℤ) (envSp : SpreadFeeService.Env)
    (stSp : SpreadFeeService.St)
    (hamt : amount.le (JSNum.num 0) = true)
    (hdays : days < 1 ∨ 30 < days) :
    TokenFeeService.calculateFees env st token amount custom =
      (Except.error ⟨"Amount must be greater than 0", 400⟩, st, []) ∧
    TokenFeeService.calculateIdrxAmount env st token amount custom =
      (Except.error ⟨"Amount must be greater than 0", 400⟩, st, []) ∧
    TokenFeeService.calculateSourceAmount env st token amount custom =
      (Except.error ⟨"IDRX amount must be greater than 0", 400⟩, st, []) ∧
    TokenFeeService.calculateVolatility env st token days =
      (Except.error ⟨"Days parameter must be between 1 and 30", 400⟩, st, []) ∧
    SpreadFeeService.calculateSpreadFee envSp stSp token days =
      (Except.error ⟨"Days parameter must be between 1 and 30", 400⟩,
        stSp, []) := by
  have h1 : TokenFeeService.calculateFees env st token amount custom =
      (Except.error ⟨"Amount must be greater than 0", 400⟩, st, []) := by
    unfold TokenFeeService.calculateFees
    simp [hamt]
  refine ⟨h1, ?_, ?_, ?_, ?_⟩
  · unfold TokenFeeService.calculateIdrxAmount
    rw [h1]
  · unfold TokenFeeService.calculateSourceAmount
    simp [hamt]
  · unfold TokenFeeService.calculateVolatility
    rw [if_pos hdays]
  · unfold SpreadFeeService.calculateSpreadFee
    rw [if_pos hdays]

theorem c6_input_validation_witness :
    TokenFeeService.calculateFees env0 st0 "eth" (JSNum.num 0) none =
      (Except.error ⟨"Amount must be greater than 0", 400⟩, st0, []) ∧
    TokenFeeService.calculateIdrxAmount env0 st0 "eth" (JSNum.num 0) none =
      (Except.error ⟨"Amount must be greater than 0", 400⟩, st0, []) ∧
    TokenFeeService.calculateSourceAmount env0 st0 "eth" (JSNum.num 0) none =
      (Except.error ⟨"IDRX amount must be greater than 0", 400⟩, st0, []) ∧
    TokenFeeService.calculateVolatility env0 st0 "eth" 0 =
      (Except.error ⟨"Days parameter must be between 1 and 30", 400⟩,
        st0, []) ∧
    SpreadFeeService.calculateSpreadFee envS stS "eth" 0 =
      (Except.error ⟨"Days parameter must be between 1 and 30", 400⟩,
        stS, []) :=
  c6_input_validation env0 st0 "eth" (JSNum.num 0) none 0 envS stS
    (by decide) (by decide)

theorem getTokenPriceFetch_then (env : TokenFeeService.Env)
    (st st1 : TokenFeeService.St) (token : String)
    (pd : TokenFeeService.TokenPriceData) (c1 : List TokenFeeService.Call)
    (h : TokenFeeService.getTokenPriceFetch env st token
        (Tokens.normalizeTokenId token) = (Except.ok pd, st1, c1)) :
    TokenFeeService.getTokenPrice env st1 token = (Except.ok pd, st1, []) := by
  unfold TokenFeeService.getTokenPriceFetch at h
  cases hq : env.quote (TokenFeeService.resolvedSymbol
      (Tokens.normalizeTokenId token) token) with
  | error fe =>
      simp only [hq] at h
      simp at h
  | ok q =>
      simp only [hq] at h
      cases h
      simp [TokenFeeService.getTokenPrice, mapGet_mapSet_self,
        TokenFeeService.CACHE_TTL]

theorem getTokenPrice_again (env : TokenFeeService.Env)
    (st st1 : TokenFeeService.St) (token : String)
    (pd : TokenFeeService.TokenPriceData) (c1 : List TokenFeeService.Call)
    (h : TokenFeeService.getTokenPrice env st token = (Except.ok pd, st1, c1)) :
    TokenFeeService.getTokenPrice env st1 token = (Except.ok pd, st1, []) := by
  unfold TokenFeeService.getTokenPrice at h
  cases hm : mapGet st.priceCache (Tokens.normalizeTokenId token) with
  | some e =>
      simp only [hm] at h
      by_cases hfresh : env.now - e.timestamp < TokenFeeService.CACHE_TTL
      · rw [if_pos hfresh] at h
        cases h
        unfold TokenFeeService.getTokenPrice
        simp only [hm]
        rw [if_pos hfresh]
      · rw [if_neg hfresh] at h
        exact getTokenPriceFetch_then env st st1 token pd c1 h
  | none =>
      simp only [hm] at h
      exact getTokenPriceFetch_then env st st1 token pd c1 h

/-- C7: cache TTL discipline.  A read that finds an entry younger than
the TTL returns the cached value with unchanged state and no provider
call; a read that finds no entry, or an entry at least TTL old, is
exactly the fetch path, which always performs one provider call, and on
provider failure surfaces the error rather than the stale value.  This
holds for the price cache, for the `(token, days)`-keyed volatility
cache of `TokenFeeService`, and for the volatility cache of
`SpreadFeeService`. -/
theorem c7_cache_ttl_discipline
    (env : TokenFeeService.Env) (st stM stv stvM : TokenFeeService.St)
    (token : String) (e : TokenFeeService.PriceCacheEntry)
    (ev : TokenFeeService.VolCacheEntry) (days : ℤ)
    (envSp : SpreadFeeService.Env) (sts stsM : SpreadFeeService.St)
    (es : SpreadFeeService.VolCacheEntry)
    (hhit : mapGet st.priceCache (Tokens.normalizeTokenId token) = some e)
    (hfresh : env.now - e.timestamp < TokenFeeService.CACHE_TTL)
    (hmiss : mapGet stM.priceCache (Tokens.normalizeTokenId token) = none ∨
      ∃ e', mapGet stM.priceCache (Tokens.normalizeTokenId token) = some e' ∧
        TokenFeeService.CACHE_TTL ≤ env.now - e'.timestamp)
    (hdays : 1 ≤ days ∧ days ≤ 30)
    (hvhit : mapGet stv.volatilityCache
        (Tokens.normalizeTokenId token ++ "-" ++ toString days) = some ev)
    (hvfresh : env.now - ev.timestamp < TokenFeeService.CACHE_TTL)
    (hvmiss : mapGet stvM.volatilityCache
        (Tokens.normalizeTokenId token ++ "-" ++ toString days) = none ∨
      ∃ ev', mapGet stvM.volatilityCache
          (Tokens.normalizeTokenId token ++ "-" ++ toString days) = some ev' ∧
        TokenFeeService.CACHE_TTL ≤ env.now - ev'.timestamp)
    (hshit : mapGet sts.volatilityCache
        (SpreadFeeService.normalizeTokenName token ++ "-" ++ toString days) =
        some es)
    (hsfresh : envSp.now - es.timestamp < SpreadFeeService.CACHE_TTL)
    (hsmiss : mapGet stsM.volatilityCache
        (SpreadFeeService.normalizeTokenName token ++ "-" ++ toString days) =
        none ∨
      ∃ es', mapGet stsM.volatilityCache
          (SpreadFeeService.normalizeTokenName token ++ "-" ++ toString days) =
          some es' ∧
        SpreadFeeService.CACHE_TTL ≤ envSp.now - es'.timestamp) :
    TokenFeeService.getTokenPrice env st token = (Except.ok e.data, st, []) ∧
    TokenFeeService.getTokenPrice env stM token =
      TokenFeeService.getTokenPriceFetch env stM token
        (Tokens.normalizeTokenId token) ∧
    (TokenFeeService.getTokenPriceFetch env stM token
        (Tokens.normalizeTokenId token)).2.2 =
      [TokenFeeService.Call.cmcQuote
        (TokenFeeService.resolvedSymbol (Tokens.normalizeTokenId token) token)] ∧
    (∀ fe, env.quote (TokenFeeService.resolvedSymbol
          (Tokens.normalizeTokenId token) token) = Except.error fe →
      (TokenFeeService.getTokenPrice env stM token).1 =
        Except.error (TokenFeeService.priceFetchError token fe)) ∧
    TokenFeeService.calculateVolatility env stv token days =
      (Except.ok ev.result, stv, []) ∧
    TokenFeeService.calculateVolatility env stvM token days =
      TokenFeeService.calculateVolatilityFetch env stvM token
        (Tokens.normalizeTokenId token)
        (Tokens.normalizeTokenId token ++ "-" ++ toString days) days ∧
    (TokenFeeService.calculateVolatilityFetch env stvM token
        (Tokens.normalizeTokenId token)
        (Tokens.normalizeTokenId token ++ "-" ++ toString days) days).2.2 =
      [TokenFeeService.Call.cmcQuote
        (TokenFeeService.resolvedSymbol (Tokens.normalizeTokenId token) token)] ∧
    SpreadFeeService.calculateSpreadFee envSp sts token days =
      (Except.ok es.result, sts, []) ∧
    SpreadFeeService.calculateSpreadFee envSp stsM token days =
      SpreadFeeService.calculateSpreadFeeFetch envSp stsM
        (SpreadFeeService.normalizeTokenName token)
        (SpreadFeeService.normalizeTokenName token ++ "-" ++ toString days)
        days ∧
    (SpreadFeeService.calculateSpreadFeeFetch envSp stsM
        (SpreadFeeService.normalizeTokenName token)
        (SpreadFeeService.normalizeTokenName token ++ "-" ++ toString days)
        days).2.2 =
      [SpreadFeeService.Call.marketChart
        (SpreadFeeService.normalizeTokenName token) days] := by
  have hPmiss : TokenFeeService.getTokenPrice env stM token =
      TokenFeeService.getTokenPriceFetch env stM token
        (Tokens.normalizeTokenId token) := by
    unfold TokenFeeService.getTokenPrice
    rcases hmiss with hnone | ⟨e', he', hstale⟩
    · simp only [hnone]
    · simp only [he']
      rw [if_neg (not_lt.mpr hstale)]
  refine ⟨?_, hPmiss, ?_, ?_, ?_, ?_, ?_, ?_, ?_, ?_⟩
  · unfold TokenFeeService.getTokenPrice
    simp only [hhit]
    rw [if_pos hfresh]
  · cases hq : env.quote (TokenFeeService.resolvedSymbol
        (Tokens.normalizeTokenId token) token) <;>
      simp [TokenFeeService.getTokenPriceFetch, hq]
  · intro fe hfe
    rw [hPmiss]
    unfold TokenFeeService.getTokenPriceFetch
    simp only [hfe]
  · unfold TokenFeeService.calculateVolatility
    rw [if_neg (by omega)]
    simp only [hvhit]
    rw [if_pos hvfresh]
  · unfold TokenFeeService.calculateVolatility
    rw [if_neg (by omega)]
    rcases hvmiss with hnone | ⟨ev', hev', hstale⟩
    · simp only [hnone]
    · simp only [hev']
      rw [if_neg (not_lt.mpr hstale)]
  · cases hq : env.quote (TokenFeeService.resolvedSymbol
        (Tokens.normalizeTokenId token) token) <;>
      simp [TokenFeeService.calculateVolatilityFetch, hq]
  · unfold SpreadFeeService.calculateSpreadFee
    rw [if_neg (by omega)]
    simp only [hshit]
    rw [if_pos hsfresh]
  · unfold SpreadFeeService.calculateSpreadFee
    rw [if_neg (by omega)]
    rcases hsmiss with hnone | ⟨es', hes', hstale⟩
    · simp only [hnone]
    · simp only [hes']
      rw [if_neg (not_lt.mpr hstale)]
  · cases hq : envSp.history (SpreadFeeService.normalizeTokenName token) days <;>
      simp [SpreadFeeService.calculateSpreadFeeFetch, hq]

theorem c7_cache_ttl_discipline_witness :
    TokenFeeService.getTokenPrice env0 st0 "eth" =
      (Except.ok pd0, st0, []) ∧
    TokenFeeService.getTokenPrice env0 st0stale "eth" =
      TokenFeeService.getTokenPriceFetch env0 st0stale "eth"
        (Tokens.normalizeTokenId "eth") ∧
    (TokenFeeService.getTokenPriceFetch env0 st0stale "eth"
        (Tokens.normalizeTokenId "eth")).2.2 =
      [TokenFeeService.Call.cmcQuote
        (TokenFeeService.resolvedSymbol (Tokens.normalizeTokenId "eth") "eth")] ∧
    (∀ fe, env0.quote (TokenFeeService.resolvedSymbol
          (Tokens.normalizeTokenId "eth") "eth") = Except.error fe →
      (TokenFeeService.getTokenPrice env0 st0stale "eth").1 =
        Except.error (TokenFeeService.priceFetchError "eth" fe)) ∧
    TokenFeeService.calculateVolatility env0 stv0 "eth" 1 =
      (Except.ok volresT, stv0, []) ∧
    TokenFeeService.calculateVolatility env0 st0 "eth" 1 =
      TokenFeeService.calculateVolatilityFetch env0 st0 "eth"
        (Tokens.normalizeTokenId "eth")
        (Tokens.normalizeTokenId "eth" ++ "-" ++ toString (1 : ℤ)) 1 ∧
    (TokenFeeService.calculateVolatilityFetch env0 st0 "eth"
        (Tokens.normalizeTokenId "eth")
        (Tokens.normalizeTokenId "eth" ++ "-" ++ toString (1 : ℤ)) 1).2.2 =
      [TokenFeeService.Call.cmcQuote
        (TokenFeeService.resolvedSymbol (Tokens.normalizeTokenId "eth") "eth")] ∧
    SpreadFeeService.calculateSpreadFee envS stS "eth" 1 =
      (Except.ok volres0, stS, []) ∧
    SpreadFeeService.calculateSpreadFee envS stSstale "eth" 1 =
      SpreadFeeService.calculateSpreadFeeFetch envS stSstale
        (SpreadFeeService.normalizeTokenName "eth")
        (SpreadFeeService.normalizeTokenName "eth" ++ "-" ++ toString (1 : ℤ))
        1 ∧
    (SpreadFeeService.calculateSpreadFeeFetch envS stSstale
        (SpreadFeeService.normalizeTokenName "eth")
        (SpreadFeeService.normalizeTokenName "eth" ++ "-" ++ toString (1 : ℤ))
        1).2.2 =
      [SpreadFeeService.Call.marketChart
        (SpreadFeeService.normalizeTokenName "eth") 1] :=
  c7_cache_ttl_discipline env0 st0 st0stale stv0 st0 "eth" ⟨pd0, 0⟩
    ⟨volresT, 0⟩ 1 envS stS stSstale ⟨volres0, 0⟩
    rfl (by decide)
    (Or.inr ⟨⟨pd0, -1200000⟩, rfl, by decide⟩)
    ⟨by decide, by decide⟩
    rfl (by decide)
    (Or.inl rfl)
    rfl (by decide)
    (Or.inr ⟨⟨volres0, -1200000⟩, rfl, by decide⟩)

/-- C8: when no spread-fee override is supplied and the volatility
lookup fails, `calculateFees` still returns a complete `FeeBreakdown`
computed with the configured default spread fee `0.002`; the volatility
failure is not propagated.  A price-lookup failure, by contrast, is
propagated unchanged whatever the override. -/
theorem c8_absorbed_volatility_failure (env : TokenFeeService.Env)
    (st st1 st2 stE stF : TokenFeeService.St) (token : String)
    (amount : JSNum) (pd : TokenFeeService.TokenPriceData)
    (c1 c2 cE : List TokenFeeService.Call) (err errE : ServiceError)
    (custom : Option JSNum)
    (hamt : amount.le (JSNum.num 0) = false)
    (hp : TokenFeeService.getTokenPrice env st token = (Except.ok pd, st1, c1))
    (hv : TokenFeeService.calculateVolatility env st1 token 1 =
      (Except.error err, st2, c2))
    (hpf : TokenFeeService.getTokenPrice env stF token =
      (Except.error errE, stE, cE)) :
    TokenFeeService.DEFAULT_SPREAD_FEE_PERCENTAGE = JSNum.num 0.002 ∧
    TokenFeeService.calculateFees env st token amount none =
      (Except.ok
        { token := pd.token, tokenSymbol := pd.tokenSymbol,
          priceUsd := pd.priceUsd, priceIdr := pd.priceIdr,
          adminFeePercentage := TokenFeeService.ADMIN_FEE_PERCENTAGE,
          adminFeeAmount := amount.mul TokenFeeService.ADMIN_FEE_PERCENTAGE,
          spreadFeePercentage := TokenFeeService.DEFAULT_SPREAD_FEE_PERCENTAGE,
          spreadFeeAmount :=
            amount.mul TokenFeeService.DEFAULT_SPREAD_FEE_PERCENTAGE,
          totalFeePercentage := TokenFeeService.ADMIN_FEE_PERCENTAGE.add
            TokenFeeService.DEFAULT_SPREAD_FEE_PERCENTAGE,
          totalFeeAmount :=
            (amount.mul TokenFeeService.ADMIN_FEE_PERCENTAGE).add
              (amount.mul TokenFeeService.DEFAULT_SPREAD_FEE_PERCENTAGE),
          amountBeforeFees := amount,
          amountAfterFees := amount.sub
            ((amount.mul TokenFeeService.ADMIN_FEE_PERCENTAGE).add
              (amount.mul TokenFeeService.DEFAULT_SPREAD_FEE_PERCENTAGE)),
          exchangeRate := pd.priceIdr, timestamp := env.now },
       st2, c1 ++ c2) ∧
    TokenFeeService.calculateFees env stF token amount custom =
      (Except.error errE, stE, cE) := by
  refine ⟨rfl, ?_, ?_⟩
  · unfold TokenFeeService.calculateFees
    rw [hamt]
    simp only [Bool.false_eq_true, if_false, hp, TokenFeeService.resolveSpreadFee, hv]
  · unfold TokenFeeService.calculateFees
    rw [hamt]
    simp only [Bool.false_eq_true, if_false, hpf]

theorem c8_absorbed_volatility_failure_witness :
    TokenFeeService.DEFAULT_SPREAD_FEE_PERCENTAGE = JSNum.num 0.002 ∧
    TokenFeeService.calculateFees env0 st0 "eth" (JSNum.num 1) none =
      (Except.ok
        { token := pd0.token, tokenSymbol := pd0.tokenSymbol,
          priceUsd := pd0.priceUsd, priceIdr := pd0.priceIdr,
          adminFeePercentage := TokenFeeService.ADMIN_FEE_PERCENTAGE,
          adminFeeAmount :=
            (JSNum.num 1).mul TokenFeeService.ADMIN_FEE_PERCENTAGE,
          spreadFeePercentage := TokenFeeService.DEFAULT_SPREAD_FEE_PERCENTAGE,
          spreadFeeAmount :=
            (JSNum.num 1).mul TokenFeeService.DEFAULT_SPREAD_FEE_PERCENTAGE,
          totalFeePercentage := TokenFeeService.ADMIN_FEE_PERCENTAGE.add
            TokenFeeService.DEFAULT_SPREAD_FEE_PERCENTAGE,
          totalFeeAmount :=
            ((JSNum.num 1).mul TokenFeeService.ADMIN_FEE_PERCENTAGE).add
              ((JSNum.num 1).mul TokenFeeService.DEFAULT_SPREAD_FEE_PERCENTAGE),
          amountBeforeFees := JSNum.num 1,
          amountAfterFees := (JSNum.num 1).sub
            (((JSNum.num 1).mul TokenFeeService.ADMIN_FEE_PERCENTAGE).add
              ((JSNum.num 1).mul TokenFeeService.DEFAULT_SPREAD_FEE_PERCENTAGE)),
          exchangeRate := pd0.priceIdr, timestamp := env0.now },
       st0, [] ++ [TokenFeeService.Call.cmcQuote "ETH"]) ∧
    TokenFeeService.calculateFees env0 stv0 "eth" (JSNum.num 1) none =
      (Except.error ⟨"Failed to get token price: provider down", 500⟩, stv0,
        [TokenFeeService.Call.cmcQuote "ETH"]) :=
  c8_absorbed_volatility_failure env0 st0 st0 st0 stv0 stv0 "eth"
    (JSNum.num 1) pd0 [] [TokenFeeService.Call.cmcQuote "ETH"]
    [TokenFeeService.Call.cmcQuote "ETH"]
    ⟨"Failed to calculate volatility: provider down", 500⟩
    ⟨"Failed to get token price: provider down", 500⟩ none
    (by decide) rfl rfl rfl

/-- C2 counterexample: the repository also contains a CoinGecko variant
of `TokenFeeService` whose `calculateFees` computes
`amountAfterFees = amount + totalFeeAmount` (fees on top).  Run on
1 unit of `eth` with a pinned spread fee of `0.002`, the returned
breakdown has `amountAfterFees = amountBeforeFees + totalFeeAmount`,
which differs from `amountBeforeFees - totalFeeAmount` — so the claim
that the engine always deducts and never adds is false. -/
theorem c2_counterexample :
    (TokenFeeServiceCG.calculateFees envCG stCG "eth" 1
        (some 0.002)).1.toOption.map
      (fun r => (r.amountAfterFees, r.amountBeforeFees, r.totalFeeAmount)) =
      some (1 + (1 * TokenFeeServiceCG.ADMIN_FEE_PERCENTAGE + 1 * (0.002 : ℚ)),
        1, 1 * TokenFeeServiceCG.ADMIN_FEE_PERCENTAGE + 1 * (0.002 : ℚ)) ∧
    1 + (1 * TokenFeeServiceCG.ADMIN_FEE_PERCENTAGE + 1 * (0.002 : ℚ)) ≠
      (1 : ℚ) - (1 * TokenFeeServiceCG.ADMIN_FEE_PERCENTAGE + 1 * (0.002 : ℚ)) :=
  ⟨rfl, by norm_num [TokenFeeServiceCG.ADMIN_FEE_PERCENTAGE]⟩

/-- C2 amended: the primary `TokenFeeService`
(src/services/tokenFeeService.ts) does apply the deduction discipline
consistently: every successful `calculateFees` breakdown satisfies
`amountAfterFees = amountBeforeFees - totalFeeAmount` with
`totalFeeAmount = adminFeeAmount + spreadFeeAmount` and
`amountBeforeFees` the requested amount; the forward conversion
multiplies exactly that `amountAfterFees` by the exchange rate, and the
breakdown returned by the inverse conversion satisfies the same
deduction equation.  (The repository's CoinGecko variant, however, uses
the addition discipline — see the counterexample.) -/
theorem c2_fee_discipline :
    (∀ env st token a c res st' cs,
      TokenFeeService.calculateFees env st token a c =
        (Except.ok res, st', cs) →
        res.amountAfterFees = res.amountBeforeFees.sub res.totalFeeAmount ∧
        res.totalFeeAmount = res.adminFeeAmount.add res.spreadFeeAmount ∧
        res.amountBeforeFees = a) ∧
    (∀ env st token a c p st' cs,
      TokenFeeService.calculateIdrxAmount env st token a c =
        (Except.ok p, st', cs) →
        p.1 = p.2.amountAfterFees.mul p.2.exchangeRate ∧
        p.2.amountAfterFees = p.2.amountBeforeFees.sub p.2.totalFeeAmount) ∧
    (∀ env st token i c p st' cs,
      TokenFeeService.calculateSourceAmount env st token i c =
        (Except.ok p, st', cs) →
        p.2.amountAfterFees = p.2.amountBeforeFees.sub p.2.totalFeeAmount) := by
  have hfees : ∀ env st token a c res st' cs,
      TokenFeeService.calculateFees env st token a c =
        (Except.ok res, st', cs) →
        res.amountAfterFees = res.amountBeforeFees.sub res.totalFeeAmount ∧
        res.totalFeeAmount = res.adminFeeAmount.add res.spreadFeeAmount ∧
        res.amountBeforeFees = a := by
    intro env st token a c res st' cs h
    unfold TokenFeeService.calculateFees at h
    by_cases hg : a.le (JSNum.num 0) = true
    · rw [if_pos hg] at h
      simp at h
    · rw [if_neg hg] at h
      rcases hp : TokenFeeService.getTokenPrice env st token with ⟨r1, st1, c1⟩
      simp only [hp] at h
      cases r1 with
      | error e => simp at h
      | ok pd =>
          rcases hr : TokenFeeService.resolveSpreadFee env st1 token c with
            ⟨spread, st2, c2⟩
          simp only [hr] at h
          cases h
          exact ⟨rfl, rfl, rfl⟩
  refine ⟨hfees, ?_, ?_⟩
  · intro env st token a c p st' cs h
    unfold TokenFeeService.calculateIdrxAmount at h
    rcases hq : TokenFeeService.calculateFees env st token a c with ⟨r, stf, cf⟩
    simp only [hq] at h
    cases r with
    | error e => simp at h
    | ok fc =>
        cases h
        exact ⟨rfl, (hfees _ _ _ _ _ _ _ _ hq).1⟩
  · intro env st token i c p st' cs h
    unfold TokenFeeService.calculateSourceAmount at h
    by_cases hg : i.le (JSNum.num 0) = true
    · rw [if_pos hg] at h
      simp at h
    · rw [if_neg hg] at h
      rcases hp : TokenFeeService.getTokenPrice env st token with ⟨r1, st1, c1⟩
      simp only [hp] at h
      cases r1 with
      | error e => simp at h
      | ok pd =>
          rcases hr : TokenFeeService.resolveSpreadFee env st1 token c with
            ⟨spread, st2, c2⟩
          simp only [hr] at h
          rcases hq : TokenFeeService.calculateFees env st2 token
              (TokenFeeService.sourceAmountFormula i pd.priceIdr
                (TokenFeeService.ADMIN_FEE_PERCENTAGE.add spread))
              (some spread) with ⟨r2, stf, cf⟩
          simp only [hq] at h
          cases r2 with
          | error e => simp at h
          | ok fc =>
              cases h
              exact (hfees _ _ _ _ _ _ _ _ hq).1


theorem c2_fee_discipline_witness :
    feeRec0.amountAfterFees =
      feeRec0.amountBeforeFees.sub feeRec0.totalFeeAmount ∧
    feeRec0.totalFeeAmount =
      feeRec0.adminFeeAmount.add feeRec0.spreadFeeAmount ∧
    feeRec0.amountBeforeFees = JSNum.num 1 :=
  c2_fee_discipline.1 env0 st0 "eth" (JSNum.num 1) (some (JSNum.num 0.002))
    feeRec0 st0 [] rfl

theorem calculateFees_pinned (env : TokenFeeService.Env)
    (st st1 : TokenFeeService.St) (token : String)
    (pd : TokenFeeService.TokenPriceData) (c1 : List TokenFeeService.Call)
    (amount custom : JSNum)
    (hp : TokenFeeService.getTokenPrice env st token = (Except.ok pd, st1, c1))
    (hamt : amount.le (JSNum.num 0) = false) :
    TokenFeeService.calculateFees env st token amount (some custom) =
      (Except.ok
        { token := pd.token, tokenSymbol := pd.tokenSymbol,
          priceUsd := pd.priceUsd, priceIdr := pd.priceIdr,
          adminFeePercentage := TokenFeeService.ADMIN_FEE_PERCENTAGE,
          adminFeeAmount := amount.mul TokenFeeService.ADMIN_FEE_PERCENTAGE,
          spreadFeePercentage := custom,
          spreadFeeAmount := amount.mul custom,
          totalFeePercentage := TokenFeeService.ADMIN_FEE_PERCENTAGE.add custom,
          totalFeeAmount :=
            (amount.mul TokenFeeService.ADMIN_FEE_PERCENTAGE).add
              (amount.mul custom),
          amountBeforeFees := amount,
          amountAfterFees := amount.sub
            ((amount.mul TokenFeeService.ADMIN_FEE_PERCENTAGE).add
              (amount.mul custom)),
          exchangeRate := pd.priceIdr, timestamp := env.now },
       st1, c1 ++ []) := by
  unfold TokenFeeService.calculateFees
  rw [hamt]
  simp only [Bool.false_eq_true, if_false, hp, TokenFeeService.resolveSpreadFee]

/-- C1 amended: for every amount `a > 0`, every pinned spread fee `f`
with `0.005 + f < 1` (total fee fraction below 100%), and a positive
exchange rate, the forward conversion produces
`idrx = a * (1 - (0.005 + f)) * r`, that target amount is positive, and
the inverse conversion on it with the same pinned fee and the same
(cached) quote returns exactly the original amount `a`.  (For fee
fractions with `0.005 + f ≥ 1` the round trip fails — see the
counterexample — which is the only restriction the code forces.) -/
theorem c1_round_trip (env : TokenFeeService.Env) (st st1 : TokenFeeService.St)
    (token : String) (a f r : ℚ) (pd : TokenFeeService.TokenPriceData)
    (c1 : List TokenFeeService.Call)
    (hp : TokenFeeService.getTokenPrice env st token = (Except.ok pd, st1, c1))
    (hr : pd.priceIdr = JSNum.num r)
    (ha : 0 < a) (hrpos : 0 < r) (hf : 0.005 + f < 1) :
    (TokenFeeService.calculateIdrxAmount env st token (JSNum.num a)
        (some (JSNum.num f))).1.map Prod.fst =
      Except.ok (JSNum.num (a * (1 - (0.005 + f)) * r)) ∧
    (TokenFeeService.calculateIdrxAmount env st token (JSNum.num a)
        (some (JSNum.num f))).2.1 = st1 ∧
    0 < a * (1 - (0.005 + f)) * r ∧
    (TokenFeeService.calculateSourceAmount env st1 token
        (JSNum.num (a * (1 - (0.005 + f)) * r))
        (some (JSNum.num f))).1.map Prod.fst = Except.ok (JSNum.num a) := by
  have hidr : (0 : ℚ) < a * (1 - (0.005 + f)) * r :=
    mul_pos (mul_pos ha (by linarith)) hrpos
  have hle : (JSNum.num a).le (JSNum.num 0) = false := by
    simp [ha.not_le]
  have hfees := calculateFees_pinned env st st1 token pd c1 (JSNum.num a)
    (JSNum.num f) hp hle
  have hafter : (a + -(a * 0.005 + a * f)) * r = a * (1 - (0.005 + f)) * r := by
    ring
  refine ⟨?_, ?_, hidr, ?_⟩
  · simp only [TokenFeeService.calculateIdrxAmount, hfees,
      TokenFeeService.ADMIN_FEE_PERCENTAGE, JSNum.mul_num, JSNum.add_num,
      JSNum.sub_num, hr, hafter, Except.map]
  · simp only [TokenFeeService.calculateIdrxAmount, hfees]
  · have hp2 := getTokenPrice_again env st st1 token pd c1 hp
    have hle2 : (JSNum.num (a * (1 - (0.005 + f)) * r)).le (JSNum.num 0) =
        false := by
      simp [hidr.not_le]
    have hden : r * (1 + -(0.005 + f)) ≠ 0 :=
      (mul_pos hrpos (by linarith)).ne'
    have hsrc : TokenFeeService.sourceAmountFormula
        (JSNum.num (a * (1 - (0.005 + f)) * r)) pd.priceIdr
        (TokenFeeService.ADMIN_FEE_PERCENTAGE.add (JSNum.num f)) =
        JSNum.num a := by
      rw [hr]
      simp only [TokenFeeService.sourceAmountFormula,
        TokenFeeService.ADMIN_FEE_PERCENTAGE, JSNum.add_num, JSNum.sub_num,
        JSNum.mul_num]
      rw [JSNum.div_num_of_ne _ _ hden]
      refine congrArg JSNum.num ?_
      rw [div_eq_iff hden]
      ring
    unfold TokenFeeService.calculateSourceAmount
    rw [hle2]
    simp only [Bool.false_eq_true, if_false, hp2,
      TokenFeeService.resolveSpreadFee, hsrc,
      calculateFees_pinned env st1 st1 token pd [] (JSNum.num a) (JSNum.num f)
        hp2 hle, Except.map]

theorem c1_round_trip_witness :
    (TokenFeeService.calculateIdrxAmount env0 st0 "eth" (JSNum.num 1)
        (some (JSNum.num 0.002))).1.map Prod.fst =
      Except.ok (JSNum.num (1 * (1 - (0.005 + 0.002)) * 27900000)) ∧
    (TokenFeeService.calculateIdrxAmount env0 st0 "eth" (JSNum.num 1)
        (some (JSNum.num 0.002))).2.1 = st0 ∧
    (0 : ℚ) < 1 * (1 - (0.005 + 0.002)) * 27900000 ∧
    (TokenFeeService.calculateSourceAmount env0 st0 "eth"
        (JSNum.num (1 * (1 - (0.005 + 0.002)) * 27900000))
        (some (JSNum.num 0.002))).1.map Prod.fst = Except.ok (JSNum.num 1) :=
  c1_round_trip env0 st0 st0 "eth" 1 0.002 27900000 pd0 [] rfl rfl
    (by norm_num) (by norm_num) (by norm_num)

/-- C1 counterexample: the claim quantifies over EVERY pinned spread
fee.  With the pinned fee `1` (100%), the total fee fraction is
`1.005`, the forward conversion succeeds and produces the negative
target amount `-139500` IDRX for 1 `eth` at rate 27,900,000, and the
inverse conversion on that target amount rejects it with the
400-status guard — so composing the two does not return the original
amount (it returns no amount at all). -/
theorem c1_counterexample :
    (TokenFeeService.calculateIdrxAmount env0 st0 "eth" (JSNum.num 1)
        (some (JSNum.num 1))).1.map Prod.fst =
      Except.ok (JSNum.num ((1 + -(1 * 0.005 + 1 * 1)) * 27900000)) ∧
    ((1 : ℚ) + -(1 * 0.005 + 1 * 1)) * 27900000 = -139500 ∧
    (TokenFeeService.calculateSourceAmount env0 st0 "eth"
        (JSNum.num ((1 + -(1 * 0.005 + 1 * 1)) * 27900000))
        (some (JSNum.num 1))).1 =
      Except.error ⟨"IDRX amount must be greater than 0", 400⟩ := by
  have hneg : ((1 : ℚ) + -(1 * 0.005 + 1 * 1)) * 27900000 ≤ 0 := by norm_num
  have hle : (JSNum.num (((1 : ℚ) + -(1 * 0.005 + 1 * 1)) * 27900000)).le
      (JSNum.num 0) = true := by
    rw [JSNum.le_num]
    exact decide_eq_true hneg
  refine ⟨rfl, by norm_num, ?_⟩
  unfold TokenFeeService.calculateSourceAmount
  rw [hle]
  simp

/-- C10 amended: the spread-fee override is accepted verbatim with no
range validation — `calculateFees` returns a complete breakdown using
any override value, including negative values, values ≥ 1 and `NaN`.
The inverse division is unguarded: with override `0.995` the total fee
fraction is exactly 1, the denominator is zero, the division yields
`Infinity`, and `calculateSourceAmount` returns it as a success (no
`InvalidArgument`).  For the larger override `1` the division yields a
negative intermediate source amount, and the call then fails with the
400-status `"Amount must be greater than 0"` error raised by the fee
recomputation on that negative amount — the negative amount itself is
not returned. -/
theorem c10_unvalidated_override (env : TokenFeeService.Env)
    (st st1 : TokenFeeService.St) (token : String)
    (pd : TokenFeeService.TokenPriceData) (c1 : List TokenFeeService.Call)
    (amount custom : JSNum) (idrx r : ℚ)
    (hp : TokenFeeService.getTokenPrice env st token = (Except.ok pd, st1, c1))
    (hamt : amount.le (JSNum.num 0) = false)
    (hr : pd.priceIdr = JSNum.num r) (hrpos : 0 < r) (hidrx : 0 < idrx) :
    TokenFeeService.calculateFees env st token amount (some custom) =
      (Except.ok
        { token := pd.token, tokenSymbol := pd.tokenSymbol,
          priceUsd := pd.priceUsd, priceIdr := pd.priceIdr,
          adminFeePercentage := TokenFeeService.ADMIN_FEE_PERCENTAGE,
          adminFeeAmount := amount.mul TokenFeeService.ADMIN_FEE_PERCENTAGE,
          spreadFeePercentage := custom,
          spreadFeeAmount := amount.mul custom,
          totalFeePercentage := TokenFeeService.ADMIN_FEE_PERCENTAGE.add custom,
          totalFeeAmount :=
            (amount.mul TokenFeeService.ADMIN_FEE_PERCENTAGE).add
              (amount.mul custom),
          amountBeforeFees := amount,
          amountAfterFees := amount.sub
            ((amount.mul TokenFeeService.ADMIN_FEE_PERCENTAGE).add
              (amount.mul custom)),
          exchangeRate := pd.priceIdr, timestamp := env.now },
       st1, c1 ++ []) ∧
    TokenFeeService.sourceAmountFormula (JSNum.num idrx) (JSNum.num r)
      (JSNum.num 1) = JSNum.inf ∧
    (TokenFeeService.calculateSourceAmount env st token (JSNum.num idrx)
        (some (JSNum.num 0.995))).1.map Prod.fst = Except.ok JSNum.inf ∧
    TokenFeeService.sourceAmountFormula (JSNum.num idrx) (JSNum.num r)
      (JSNum.num 1.005) = JSNum.num (idrx / (r * (1 + -(1.005 : ℚ)))) ∧
    idrx / (r * (1 + -(1.005 : ℚ))) < 0 ∧
    (TokenFeeService.calculateSourceAmount env st token (JSNum.num idrx)
        (some (JSNum.num 1))).1 =
      Except.error ⟨"Amount must be greater than 0", 400⟩ := by
  have hle2 : (JSNum.num idrx).le (JSNum.num 0) = false := by
    simp [hidrx.not_le]
  have hp2 := getTokenPrice_again env st st1 token pd c1 hp
  have hdenNeg : r * (1 + -(1.005 : ℚ)) < 0 :=
    mul_neg_of_pos_of_neg hrpos (by norm_num)
  have hdiv1 : TokenFeeService.sourceAmountFormula (JSNum.num idrx)
      (JSNum.num r) (JSNum.num 1) = JSNum.inf := by
    have h0 : r * (1 + -(1 : ℚ)) = 0 := by ring
    simp only [TokenFeeService.sourceAmountFormula, JSNum.sub_num,
      JSNum.mul_num, h0]
    exact JSNum.div_num_pos_zero idrx hidrx
  have hdiv3 : TokenFeeService.sourceAmountFormula (JSNum.num idrx)
      (JSNum.num r) (JSNum.num 1.005) =
      JSNum.num (idrx / (r * (1 + -(1.005 : ℚ)))) := by
    simp only [TokenFeeService.sourceAmountFormula, JSNum.sub_num,
      JSNum.mul_num]
    exact JSNum.div_num_of_ne _ _ hdenNeg.ne
  refine ⟨calculateFees_pinned env st st1 token pd c1 amount custom hp hamt,
    hdiv1, ?_, hdiv3, div_neg_of_pos_of_neg hidrx hdenNeg, ?_⟩
  · have h1 : (0.005 : ℚ) + 0.995 = 1 := by norm_num
    unfold TokenFeeService.calculateSourceAmount
    rw [hle2]
    simp only [Bool.false_eq_true, if_false, hp,
      TokenFeeService.resolveSpreadFee, TokenFeeService.ADMIN_FEE_PERCENTAGE,
      JSNum.add_num, h1, hr, hdiv1,
      calculateFees_pinned env st1 st1 token pd [] JSNum.inf
        (JSNum.num 0.995) hp2 rfl, Except.map]
  · have h105 : (0.005 : ℚ) + 1 = 1.005 := by norm_num
    have hleNeg : (JSNum.num (idrx / (r * (1 + -(1.005 : ℚ))))).le
        (JSNum.num 0) = true := by
      rw [JSNum.le_num]
      exact decide_eq_true (le_of_lt (div_neg_of_pos_of_neg hidrx hdenNeg))
    unfold TokenFeeService.calculateSourceAmount
    rw [hle2]
    simp only [Bool.false_eq_true, if_false, hp,
      TokenFeeService.resolveSpreadFee, TokenFeeService.ADMIN_FEE_PERCENTAGE,
      JSNum.add_num, h105, hr, hdiv3]
    unfold TokenFeeService.calculateFees
    rw [hleNeg]
    simp

/-- C10 counterexample: the claim says that for overrides beyond the
division-by-zero point `calculateSourceAmount` yields a negative
`sourceAmount`.  It does not: with override `1` (total fee fraction
`1.005`) on 1000 IDRX against the cached Ethereum quote, the negative
intermediate amount is rejected by the fee recomputation and the call
returns the 400-status `InvalidArgument` error instead of any source
amount. -/
theorem c10_counterexample :
    (TokenFeeService.calculateSourceAmount env0 st0 "eth" (JSNum.num 1000)
        (some (JSNum.num 1))).1 =
      Except.error ⟨"Amount must be greater than 0", 400⟩ := by
  have hp : TokenFeeService.getTokenPrice env0 st0 "eth" =
      (Except.ok pd0, st0, []) := rfl
  have hdenNeg : (27900000 : ℚ) * (1 + -(1.005 : ℚ)) < 0 := by norm_num
  have hdiv : TokenFeeService.sourceAmountFormula (JSNum.num 1000)
      (JSNum.num 27900000) (JSNum.num 1.005) =
      JSNum.num (1000 / (27900000 * (1 + -(1.005 : ℚ)))) := by
    simp only [TokenFeeService.sourceAmountFormula, JSNum.sub_num,
      JSNum.mul_num]
    exact JSNum.div_num_of_ne _ _ hdenNeg.ne
  have hle2 : (JSNum.num 1000).le (JSNum.num 0) = false := by decide
  have hleNeg : (JSNum.num ((1000 : ℚ) /
      (27900000 * (1 + -(1.005 : ℚ))))).le (JSNum.num 0) = true := by
    rw [JSNum.le_num]
    exact decide_eq_true (le_of_lt (div_neg_of_pos_of_neg (by norm_num) hdenNeg))
  have h105 : (0.005 : ℚ) + 1 = 1.005 := by norm_num
  unfold TokenFeeService.calculateSourceAmount
  rw [hle2]
  simp only [Bool.false_eq_true, if_false, hp,
    TokenFeeService.resolveSpreadFee, TokenFeeService.ADMIN_FEE_PERCENTAGE,
    JSNum.add_num, h105, pd0, hdiv]
  unfold TokenFeeService.calculateFees
  rw [hleNeg]
  simp

theorem c10_unvalidated_override_witness :
    TokenFeeService.calculateFees env0 st0 "eth" (JSNum.num 1)
        (some (JSNum.num 5)) =
      (Except.ok
        { token := pd0.token, tokenSymbol := pd0.tokenSymbol,
          priceUsd := pd0.priceUsd, priceIdr := pd0.priceIdr,
          adminFeePercentage := TokenFeeService.ADMIN_FEE_PERCENTAGE,
          adminFeeAmount :=
            (JSNum.num 1).mul TokenFeeService.ADMIN_FEE_PERCENTAGE,
          spreadFeePercentage := JSNum.num 5,
          spreadFeeAmount := (JSNum.num 1).mul (JSNum.num 5),
          totalFeePercentage :=
            TokenFeeService.ADMIN_FEE_PERCENTAGE.add (JSNum.num 5),
          totalFeeAmount :=
            ((JSNum.num 1).mul TokenFeeService.ADMIN_FEE_PERCENTAGE).add
              ((JSNum.num 1).mul (JSNum.num 5)),
          amountBeforeFees := JSNum.num 1,
          amountAfterFees := (JSNum.num 1).sub
            (((JSNum.num 1).mul TokenFeeService.ADMIN_FEE_PERCENTAGE).add
              ((JSNum.num 1).mul (JSNum.num 5))),
          exchangeRate := pd0.priceIdr, timestamp := env0.now },
       st0, [] ++ []) ∧
    TokenFeeService.sourceAmountFormula (JSNum.num 1000) (JSNum.num 27900000)
      (JSNum.num 1) = JSNum.inf ∧
    (TokenFeeService.calculateSourceAmount env0 st0 "eth" (JSNum.num 1000)
        (some (JSNum.num 0.995))).1.map Prod.fst = Except.ok JSNum.inf ∧
    TokenFeeService.sourceAmountFormula (JSNum.num 1000) (JSNum.num 27900000)
      (JSNum.num 1.005) =
      JSNum.num (1000 / (27900000 * (1 + -(1.005 : ℚ)))) ∧
    (1000 : ℚ) / (27900000 * (1 + -(1.005 : ℚ))) < 0 ∧
    (TokenFeeService.calculateSourceAmount env0 st0 "eth" (JSNum.num 1000)
        (some (JSNum.num 1))).1 =
      Except.error ⟨"Amount must be greater than 0", 400⟩ :=
  c10_unvalidated_override env0 st0 st0 "eth" pd0 [] (JSNum.num 1)
    (JSNum.num 5) 1000 27900000 rfl (by decide) rfl (by norm_num)
    (by norm_num)
